import Mathlib

/-!
# Smart Chrome Video Downloader / Trimmer: correlation, job slots and quality selection

A shallow embedding of the extension's background script (`background.js`) and of the
popup's download slots and quality selector (`popup.js`), followed by theorems about them.

Conventions of the embedding

* A JavaScript string is a `String`; an absent, `null` or `undefined` field is `none`.
  A string field is truthy when it is present and non-empty.
* Numbers that arrive as JSON (`tbr`, `height`, ...) are finite doubles; they are carried
  by their exact rational value, which preserves the sign of every difference the code
  takes. Numbers produced by `parseFloat` may be `NaN` or infinite and use `JsNumber`.
* Calls into the browser (`sendResponse`, `postMessage`, `sendMessage`) are recorded as a
  list of effects, in program order. A callback that the browser invokes later is a
  separate function of the state.
-/

namespace SmartDownloader

/-! ## JavaScript values -/

/-- A JavaScript number: a finite double (by its exact value), `NaN`, or an infinity. -/
inductive JsNumber where
  | finite (q : ℚ)
  | nan
  | posInf
  | negInf
deriving DecidableEq

namespace JsNumber

/-- Truthiness of a number: every number except `0` and `NaN`. -/
def truthy : JsNumber → Bool
  | finite q => decide (q ≠ 0)
  | nan => false
  | posInf => true
  | negInf => true

/-- The global `isFinite` on a number. -/
def isFinite : JsNumber → Bool
  | finite _ => true
  | _ => false

/-- The relational operator `a <= b` on numbers (false whenever an operand is `NaN`). -/
def le : JsNumber → JsNumber → Bool
  | nan, _ => false
  | _, nan => false
  | negInf, _ => true
  | _, posInf => true
  | finite a, finite b => decide (a ≤ b)
  | finite _, negInf => false
  | posInf, finite _ => false
  | posInf, negInf => false

/-- The expression `x || d` for a number `x`. -/
def orElse (x d : JsNumber) : JsNumber :=
  if x.truthy then x else d

end JsNumber

/-- A string-valued field is truthy when it is present and not the empty string. -/
def truthyStr : Option String → Bool
  | some s => decide (s ≠ "")
  | none => false

/-! ## background.js -/

namespace Background

/-- A message delivered by the native port, reduced to the fields the extension reads.
`ok` is the truthiness of `msg.ok`; `payload` stands for every other field. -/
structure NativeMsg where
  jobId : Option String
  event : Option String
  ok : Bool
  payload : String
deriving DecidableEq

/-- A message received on `chrome.runtime.onMessage`; `rest` stands for the other fields. -/
structure Request where
  type : Option String
  rest : String
deriving DecidableEq

/-- What the background script does to the outside world. `cb` names the `sendResponse`
callback of one runtime request. -/
inductive Effect where
  /-- The call `chrome.runtime.connectNative(NATIVE_HOST_NAME)`. -/
  | connectNative
  /-- The call `nativePort.postMessage` with the message and the job id. -/
  | postMessage (message : Request) (jobId : String)
  /-- The immediate reply `sendResponse` with `ok: true` and the job id. -/
  | acknowledge (cb : Nat) (jobId : String)
  /-- The stored handler runs: `sendResponse` with `ok: !!nativeMsg.ok` and the message. -/
  | respond (cb : Nat) (nativeMsg : NativeMsg)
  /-- The call `chrome.runtime.sendMessage` with `fromNative: true` and the message. -/
  | broadcast (msg : NativeMsg)
  /-- The call `console.warn` for a native message without job id. -/
  | warn
  /-- The value read from `pendingJobs` is a member inherited from `Object.prototype` and
  `cb(msg)` is applied to it: a built-in method runs on the message (it returns or throws),
  or, for `__proto__`, the call throws. No `sendResponse` runs and nothing is forwarded. -/
  | callInherited (name : String) (msg : NativeMsg)
deriving DecidableEq

/-- The object `pendingJobs`, a plain `{}`: its own properties in insertion order. A stored
handler is the closure over one `sendResponse`, named by that callback. -/
abbrev PendingJobs := List (String × Nat)

/-- The property names every plain object inherits from `Object.prototype`. -/
def objectPrototypeKeys : List String :=
  ["constructor", "__defineGetter__", "__defineSetter__", "hasOwnProperty",
    "__lookupGetter__", "__lookupSetter__", "isPrototypeOf", "propertyIsEnumerable",
    "toString", "valueOf", "__proto__", "toLocaleString"]

/-- What a property read on `pendingJobs` yields. -/
inductive Property where
  /-- An own property: the handler stored under the name. -/
  | handler (cb : Nat)
  /-- No own property, but a member of `Object.prototype` of that name (a truthy value). -/
  | inherited
  /-- Neither: the read gives `undefined`. -/
  | undefined
deriving DecidableEq

/-- The own property of `pendingJobs` with the given name, if there is one. -/
def PendingJobs.own : PendingJobs → String → Option Nat
  | [], _ => none
  | (k, cb) :: p, jobId => if k = jobId then some cb else PendingJobs.own p jobId

/-- The read `pendingJobs[jobId]`: the own property, else the member inherited from
`Object.prototype`, else `undefined`. -/
def PendingJobs.get (p : PendingJobs) (jobId : String) : Property :=
  match p.own jobId with
  | some cb => Property.handler cb
  | none => if jobId ∈ objectPrototypeKeys then Property.inherited else Property.undefined

/-- The statement `delete pendingJobs[jobId]`. -/
def PendingJobs.delete : PendingJobs → String → PendingJobs
  | [], _ => []
  | (k, cb) :: p, jobId =>
    if k = jobId then PendingJobs.delete p jobId else (k, cb) :: PendingJobs.delete p jobId

/-- The assignment `pendingJobs[jobId] = handler`, for the job ids `makeJobId` issues: an
existing property keeps its place, a new one is added last. -/
def PendingJobs.set : PendingJobs → String → Nat → PendingJobs
  | [], jobId, handler => [(jobId, handler)]
  | (k, cb) :: p, jobId, handler =>
    if k = jobId then (k, handler) :: PendingJobs.delete p jobId
    else (k, cb) :: PendingJobs.set p jobId handler

/-- The module state: whether `nativePort` is non-null, and `pendingJobs`. -/
structure State where
  nativePort : Bool
  pendingJobs : PendingJobs
deriving DecidableEq

/-- The template in `makeJobId`, given the clock reading and the hexadecimal digits of the
random draw. -/
def makeJobId (now : Nat) (hex : String) : String :=
  toString now ++ "-" ++ hex

/-- The listener installed on `nativePort.onMessage` by `ensurePort`. -/
def onNativeMessage (s : State) (msg : Option NativeMsg) : State × List Effect :=
  match msg with
  | none => (s, [Effect.warn])
  | some m =>
    if !truthyStr m.jobId then (s, [Effect.warn])
    else
      let jobId := m.jobId.getD ""
      match s.pendingJobs.get jobId with
      | Property.handler cb =>
        ({ s with pendingJobs := s.pendingJobs.delete jobId }, [Effect.respond cb m])
      | Property.inherited =>
        ({ s with pendingJobs := s.pendingJobs.delete jobId }, [Effect.callInherited jobId m])
      | Property.undefined => (s, [Effect.broadcast m])

/-- The function `ensurePort`. -/
def ensurePort (s : State) : State × List Effect :=
  if s.nativePort then (s, []) else ({ s with nativePort := true }, [Effect.connectNative])

/-- The listener on `nativePort.onDisconnect`. -/
def onDisconnect (s : State) : State :=
  { s with nativePort := false }

/-- The listener on `chrome.runtime.onMessage` of the background script. `cb` names the
`sendResponse` of this request; `now` and `hex` are what `makeJobId` draws. -/
def onRuntimeMessage (s : State) (message : Option Request) (cb : Nat) (now : Nat)
    (hex : String) : State × List Effect :=
  match message with
  | none => (s, [])
  | some m =>
    if !truthyStr m.type then (s, [])
    else if m.type = some "DOWNLOAD_FULL" ∨ m.type = some "DOWNLOAD_TRIMMED" then
      let (s1, e1) := ensurePort s
      let jobId := makeJobId now hex
      (s1, e1 ++ [Effect.postMessage m jobId, Effect.acknowledge cb jobId])
    else if m.type = some "PROBE_INFO" ∨ m.type = some "CHOOSE_SAVE_DIR" then
      let (s1, e1) := ensurePort s
      let jobId := makeJobId now hex
      ({ s1 with pendingJobs := s1.pendingJobs.set jobId cb }, e1 ++ [Effect.postMessage m jobId])
    else (s, [])

/-- The handlers invoked by a list of effects, in order. -/
def handlersInvoked (es : List Effect) : List Nat :=
  es.filterMap (fun e => match e with
    | Effect.respond cb _ => some cb
    | _ => none)

/-- The messages broadcast to the popups by a list of effects, in order. -/
def broadcasts (es : List Effect) : List NativeMsg :=
  es.filterMap (fun e => match e with
    | Effect.broadcast m => some m
    | _ => none)

end Background

/-! ## popup.js: download slots -/

/-- A JavaScript value as it can appear in a JSON message field. -/
inductive JsValue where
  | undefined
  | null
  | bool (b : Bool)
  | number (n : JsNumber)
  | string (s : String)
  | object
deriving DecidableEq

/-- Truthiness of a value. -/
def JsValue.truthy : JsValue → Bool
  | JsValue.undefined => false
  | JsValue.null => false
  | JsValue.bool b => b
  | JsValue.number n => n.truthy
  | JsValue.string s => decide (s ≠ "")
  | JsValue.object => true

/-- The method `String.prototype.startsWith`. -/
def startsWith (s pre : String) : Bool :=
  pre.toList.isPrefixOf s.toList

/-- The call `s.slice(n)` for `n` within an ASCII prefix of `s`. -/
def slice (s : String) (n : Nat) : String :=
  String.mk (s.toList.drop n)

/-- The function `Math.round` on a finite number: the nearest integer, ties upward. -/
def mathRound (q : ℚ) : ℤ :=
  ⌊q + 1 / 2⌋

namespace Popup

/-- The two download buttons. -/
inductive Which where
  | full
  | trimmed
deriving DecidableEq

/-- The value of the `stream-type` select as `getStreamType` returns it: `"a"`, `"v"`,
or `"av"` (also the default). -/
inductive StreamType where
  | a
  | v
  | av
deriving DecidableEq

/-- What the button caption shows. -/
inductive Caption where
  /-- The caption chosen from the stream type by `resetButton`. -/
  | download
  /-- The text "Downloading… N%". -/
  | downloading (safePercent : ℤ)
  /-- The text "Saved to <folder> ✓" computed from `filename`. -/
  | saved (filename : Option String)
  /-- The text "Error – click to retry". -/
  | errorRetry
deriving DecidableEq

/-- One entry of `buttonState` together with the button element it drives: the CSS
classes `btn-busy`, `btn-success`, `btn-error`, the `disabled` flag and the caption. -/
structure Button where
  jobId : Option String
  busy : Bool
  btnBusy : Bool
  btnSuccess : Bool
  btnError : Bool
  disabled : Bool
  text : Caption
deriving DecidableEq

/-- The object `buttonState`. -/
structure ButtonState where
  full : Button
  trimmed : Button
deriving DecidableEq

/-- The read `buttonState[which]`. -/
def ButtonState.get (bs : ButtonState) : Which → Button
  | Which.full => bs.full
  | Which.trimmed => bs.trimmed

/-- An update of `buttonState[which]` and its button element. -/
def ButtonState.set (bs : ButtonState) (which : Which) (b : Button) : ButtonState :=
  match which with
  | Which.full => { bs with full := b }
  | Which.trimmed => { bs with trimmed := b }

/-- The initial `buttonState`; the start-up handler disables the trimmed button. -/
def initialButtonState : ButtonState :=
  { full := ⟨none, false, false, false, false, false, Caption.download⟩,
    trimmed := ⟨none, false, false, false, false, true, Caption.download⟩ }

/-- The function `resetButton`. -/
def resetButton (bs : ButtonState) (which : Which) : ButtonState :=
  bs.set which
    { jobId := none, busy := false, btnBusy := false, btnSuccess := false, btnError := false,
      disabled := decide (which = Which.trimmed), text := Caption.download }

/-- The value `safePercent` computed by `setButtonProgress`. -/
def safePercent : JsValue → ℤ
  | JsValue.number (JsNumber.finite q) => max 0 (min 100 (mathRound q))
  | _ => 0

/-- The function `setButtonProgress`. -/
def setButtonProgress (bs : ButtonState) (which : Which) (percent : JsValue) : ButtonState :=
  bs.set which
    { bs.get which with
      btnBusy := true, btnSuccess := false, btnError := false, disabled := true,
      text := Caption.downloading (safePercent percent), busy := true }

/-- The function `setButtonDone`. -/
def setButtonDone (bs : ButtonState) (which : Which) (filename : Option String) : ButtonState :=
  bs.set which
    { bs.get which with
      btnBusy := false, btnError := false, btnSuccess := true, disabled := false,
      text := Caption.saved filename, busy := false, jobId := none }

/-- The function `setButtonError`; the message is only logged. -/
def setButtonError (bs : ButtonState) (which : Which) (_errorMessage : String) : ButtonState :=
  bs.set which
    { bs.get which with
      btnBusy := false, btnSuccess := false, btnError := true, disabled := false,
      text := Caption.errorRetry, busy := false, jobId := none }

/-- A button shows the error state: class `btn-error` alone and the retry caption. -/
def Button.showsError (b : Button) : Bool :=
  b.btnError && !b.btnBusy && !b.btnSuccess && b.text == Caption.errorRetry

/-- A message received on `chrome.runtime.onMessage` of the popup. -/
structure RuntimeMsg where
  fromNative : Bool
  jobId : Option String
  event : Option String
  percent : JsValue
  filename : Option String
  error : Option String
deriving DecidableEq

/-- The body of the `forEach` in the popup's message listener, for one button. -/
def routeEvent (msg : RuntimeMsg) (bs : ButtonState) (which : Which) : ButtonState :=
  if (bs.get which).jobId ≠ msg.jobId then bs
  else if msg.event = some "start" then
    setButtonProgress bs which (JsValue.number (JsNumber.finite 0))
  else if msg.event = some "progress" then
    setButtonProgress bs which
      (if msg.percent.truthy then msg.percent else JsValue.number (JsNumber.finite 0))
  else if msg.event = some "complete" then
    setButtonDone bs which msg.filename
  else if msg.event = some "error" then
    setButtonError bs which (if truthyStr msg.error then msg.error.getD "" else "Unknown error")
  else bs

/-- The popup's listener for progress events from the native host. -/
def onMessage (bs : ButtonState) (msg : Option RuntimeMsg) : ButtonState :=
  match msg with
  | none => bs
  | some m =>
    if !m.fromNative || !truthyStr m.jobId then bs
    else [Which.full, Which.trimmed].foldl (routeEvent m) bs

/-- One entry of the yt-dlp format list, with the fields the popup reads. -/
structure Format where
  format_id : Option String
  vcodec : Option String
  acodec : Option String
  ext : Option String
  tbr : Option ℚ
  height : Option ℚ
  width : Option ℚ
  fps : Option ℚ
  format_note : Option String
deriving DecidableEq

/-- A video of the list; `_formats` is `none` until a probe stores an array, whose
elements may be `null`. -/
structure Video where
  title : Option String
  src : Option String
  pageUrl : Option String
  _knownDuration : Option ℚ
  _formats : Option (List (Option Format))
deriving DecidableEq

/-- The variable `currentTab`. -/
structure Tab where
  url : Option String
  title : Option String
deriving DecidableEq

/-- The form controls `startDownload` reads. `enableTrim` is `none` when the checkbox is
missing and its `checked` flag otherwise; `startRange` and `endRange` are the results of
`parseFloat` on the slider values; `qualitySelect` and `formatSelect` are `none` when the
element is missing and its `value` otherwise. -/
structure Controls where
  enableTrim : Option Bool
  startRange : JsNumber
  endRange : JsNumber
  streamType : StreamType
  qualitySelect : Option String
  formatSelect : Option String
deriving DecidableEq

/-- The module state of the popup that `startDownload` reads. -/
structure State where
  buttonState : ButtonState
  selectedVideo : Option Video
  currentTab : Tab
  controls : Controls
deriving DecidableEq

/-- The message `startDownload` hands to `chrome.runtime.sendMessage`. -/
structure Payload where
  type : String
  title : String
  videoUrl : Option String
  pageUrl : Option String
  quality : String
  formatId : Option String
  container : String
  streamType : StreamType
  start : Option JsNumber
  end_ : Option JsNumber
deriving DecidableEq

/-- The expression `a || b` on string-valued fields. -/
def orStr (a b : Option String) : Option String :=
  if truthyStr a then a else b

/-- The characters of the class in `sanitizeFilename`: slash, backslash, question mark,
percent, asterisk, colon, bar, double quote, less-than, greater-than. -/
def forbiddenChars : List Char :=
  [47, 92, 63, 37, 42, 58, 124, 34, 60, 62].map Char.ofNat

/-- The function `sanitizeFilename`. -/
def sanitizeFilename (name : String) : String :=
  String.mk (name.toList.map (fun c => if c ∈ forbiddenChars then Char.ofNat 95 else c))

/-- The constant `maxDuration` of `startDownload`. -/
def maxDuration (video : Video) : JsNumber :=
  match video._knownDuration with
  | some q => if q ≠ 0 then JsNumber.finite q else JsNumber.finite 7200
  | none => JsNumber.finite 7200

/-- The pair `(quality, formatId)` that `startDownload` derives from the select value. -/
def reconcileQuality (streamType : StreamType) (qualitySelect : Option String) :
    String × Option String :=
  let rawQuality := (orStr qualitySelect (some "best")).getD "best"
  if startsWith rawQuality "format:" then
    (if streamType = StreamType.a then "audio" else "best", some (slice rawQuality 7))
  else if rawQuality = "audio" then ("audio", none)
  else (rawQuality, none)

/-- The object `payload` built by `startDownload`. -/
def buildPayload (s : State) (video : Video) (which : Which) (start end_ : JsNumber) :
    Payload :=
  let isTrimmed := decide (which = Which.trimmed)
  let fallback := if isTrimmed then "clip" else "video"
  let named := sanitizeFilename
    ((orStr video.title (orStr s.currentTab.title (some fallback))).getD fallback)
  let q := reconcileQuality s.controls.streamType s.controls.qualitySelect
  { type := if isTrimmed then "DOWNLOAD_TRIMMED" else "DOWNLOAD_FULL",
    title := if named ≠ "" then named else fallback,
    videoUrl := orStr video.src none,
    pageUrl := orStr video.pageUrl (orStr s.currentTab.url none),
    quality := q.1,
    formatId := q.2,
    container := (orStr s.controls.formatSelect (some "mp4")).getD "mp4",
    streamType := s.controls.streamType,
    start := if isTrimmed then some start else none,
    end_ := if isTrimmed then some end_ else none }

/-- The function `startDownload` up to the call of `chrome.runtime.sendMessage`: the new
`buttonState` and the messages sent (none or one). The callback of that call is
`onStartResponse`, which the browser runs later. -/
def startDownload (s : State) (which : Which) : ButtonState × List Payload :=
  match s.selectedVideo with
  | none => (s.buttonState, [])
  | some video =>
    if (s.buttonState.get which).busy then (s.buttonState, [])
    else
      let isTrimmed := decide (which = Which.trimmed)
      let trimmingEnabled := s.controls.enableTrim.getD false
      if isTrimmed && !trimmingEnabled then (s.buttonState, [])
      else
        let start :=
          if isTrimmed then s.controls.startRange.orElse (JsNumber.finite 0)
          else JsNumber.finite 0
        let end_ :=
          if isTrimmed then s.controls.endRange.orElse (maxDuration video)
          else maxDuration video
        if isTrimmed && end_.le start then
          (setButtonError s.buttonState which "End must be greater than start.", [])
        else
          (s.buttonState, [buildPayload s video which start end_])

/-- The reply the background script gives to a download request. -/
structure Response where
  ok : Bool
  jobId : Option String
  error : Option String
deriving DecidableEq

/-- The callback `startDownload` passes to `chrome.runtime.sendMessage`. `lastError` is
`chrome.runtime.lastError`; `response` is `none` when no reply arrived. -/
def onStartResponse (bs : ButtonState) (which : Which) (lastError : Option String)
    (response : Option Response) : ButtonState :=
  match lastError, response with
  | some e, _ => setButtonError bs which e
  | none, none => setButtonError bs which "Failed to start download."
  | none, some r =>
    if !r.ok then
      setButtonError bs which ((orStr r.error (some "Failed to start download.")).getD "")
    else
      setButtonProgress (bs.set which { bs.get which with jobId := r.jobId }) which
        (JsValue.number (JsNumber.finite 0))

/-! ## popup.js: the quality selector -/

/-- The method `toLowerCase`. The popup compares its result only with `"none"`, `""` and
the audio extensions; no letter of those is the lower case of a character outside ASCII,
so the ASCII lowering decides every such comparison as JavaScript does. -/
def toLowerCase (s : String) : String :=
  String.mk (s.toList.map Char.toLower)

/-- One piece of an option label, before numbers are printed and the pieces are joined
with the separator. -/
inductive LabelPart where
  /-- The rounded bitrate followed by `kbps`. -/
  | kbps (rounded : ℤ)
  /-- The extension. -/
  | ext (e : String)
  /-- The free-text note. -/
  | note (n : String)
  /-- The width and height joined by `x`. -/
  | resolution (width height : ℚ)
  /-- The height followed by `p`. -/
  | heightP (height : ℚ)
  /-- The frame rate followed by `fps`. -/
  | fps (f : ℚ)
  /-- The role "video only". -/
  | videoOnly
  /-- The role "video + audio". -/
  | videoAudio
  /-- The role "muxed with best audio". -/
  | muxedBestAudio
deriving DecidableEq

/-- The text of an option: a fixed string, or label pieces to be joined. -/
inductive Label where
  | text (s : String)
  | parts (ps : List LabelPart)
deriving DecidableEq

/-- An `<option>` of the `quality-select` element. -/
structure QualityOption where
  value : String
  label : Label
  disabled : Bool
deriving DecidableEq

/-- The function `addQualityOption`, on the list of options of the select. -/
def addQualityOption (sel : List QualityOption) (value label : String) (disabled : Bool) :
    List QualityOption :=
  sel ++ [⟨value, Label.text label, disabled⟩]

/-- The first filter of `buildQualitySelect`: `formats.filter((f) => f && f.format_id)`. -/
def withFormatId (formats : List (Option Format)) : List Format :=
  formats.filterMap (fun f =>
    match f with
    | some g => if truthyStr g.format_id then some g else none
    | none => none)

/-- The test `v && v !== "none"` on a codec field. -/
def codecPresent (c : Option String) : Bool :=
  truthyStr c && decide (c ≠ some "none")

/-- The test `!a || a === "none"` on a codec field. -/
def codecAbsent (c : Option String) : Bool :=
  !truthyStr c || decide (c = some "none")

/-- The constant `audioExts`. -/
def audioExts : List String :=
  ["m4a", "mp3", "webm", "opus", "ogg", "flac", "wav"]

/-- The filter of the branch `streamType === "a"`. -/
def audioFilter (f : Format) : Bool :=
  let v := toLowerCase (f.vcodec.getD "")
  let a := f.acodec
  let ext := toLowerCase (f.ext.getD "")
  let hasAudio := truthyStr a && decide (toLowerCase (a.getD "") ≠ "none")
  let noVideo := decide (v = "") || decide (v = "none")
  let audioishExt := decide (ext ∈ audioExts)
  hasAudio && (noVideo || audioishExt)

/-- The filter `videoOnly` of the branch `streamType === "v"`. -/
def videoOnlyFilter (f : Format) : Bool :=
  codecPresent f.vcodec && codecAbsent f.acodec

/-- The fallback filter of the video branches: `v && v !== "none"`. -/
def anyVideoFilter (f : Format) : Bool :=
  codecPresent f.vcodec

/-- The filter `avFormats` of the branch for video with audio. -/
def avFilter (f : Format) : Bool :=
  codecPresent f.vcodec && codecPresent f.acodec

/-- The value of `list` before it is sorted. -/
def classifyFormats (streamType : StreamType) (formats : List Format) : List Format :=
  match streamType with
  | StreamType.a => formats.filter audioFilter
  | StreamType.v =>
    let videoOnly := formats.filter videoOnlyFilter
    if videoOnly.length ≠ 0 then videoOnly else formats.filter anyVideoFilter
  | StreamType.av =>
    let avFormats := formats.filter avFilter
    if avFormats.length ≠ 0 then avFormats else formats.filter anyVideoFilter

/-- The number a branch sorts by: `f.tbr || 0` for audio, `f.height || 0` otherwise. -/
def sortKey (streamType : StreamType) (f : Format) : ℚ :=
  match streamType with
  | StreamType.a => f.tbr.getD 0
  | _ => f.height.getD 0

/-- The comparator of `list.sort`, as the test "`x` may stay before `y`":
`(y.key || 0) - (x.key || 0) <= 0`. -/
def staysBefore (streamType : StreamType) (x y : Format) : Bool :=
  decide (sortKey streamType y - sortKey streamType x ≤ 0)

/-- The value of `list` after `list.sort(...)`. `Array.prototype.sort` is a stable sort;
for a comparator that is a difference of keys its result is unique, and merge sort
computes it. -/
def rankFormats (streamType : StreamType) (formats : List Format) : List Format :=
  (classifyFormats streamType formats).mergeSort (staysBefore streamType)

/-- The array `parts` built for one format. -/
def labelParts (streamType : StreamType) (f : Format) : List LabelPart :=
  let ext := f.ext.getD ""
  let tbr := f.tbr.getD 0
  let note := f.format_note.getD ""
  let kbps := if tbr ≠ 0 then [LabelPart.kbps (mathRound tbr)] else []
  let extPart := if ext ≠ "" then [LabelPart.ext ext] else []
  let notePart := if note ≠ "" then [LabelPart.note note] else []
  match streamType with
  | StreamType.a => kbps ++ extPart ++ notePart
  | st =>
    let width := f.width.getD 0
    let height := f.height.getD 0
    let size :=
      if width ≠ 0 ∧ height ≠ 0 then [LabelPart.resolution width height]
      else if height ≠ 0 then [LabelPart.heightP height]
      else []
    let fps := if f.fps.getD 0 ≠ 0 then [LabelPart.fps (f.fps.getD 0)] else []
    let role :=
      if st = StreamType.v then LabelPart.videoOnly
      else if codecPresent f.vcodec && codecPresent f.acodec then LabelPart.videoAudio
      else LabelPart.muxedBestAudio
    size ++ fps ++ extPart ++ kbps ++ [role] ++ notePart

/-- The option appended for one format by the `forEach` of `buildQualitySelect`. -/
def formatOption (streamType : StreamType) (f : Format) : QualityOption :=
  let parts := labelParts streamType f
  { value := "format:" ++ f.format_id.getD "",
    label := if parts.length ≠ 0 then Label.parts parts else Label.text (f.format_id.getD ""),
    disabled := false }

/-- The function `buildQualitySelect`: the options of `quality-select` after the call,
for the stream type `getStreamType()` returns. The select element is taken to exist. -/
def buildQualitySelect (streamType : StreamType) (video : Video) : List QualityOption :=
  let formats := withFormatId (video._formats.getD [])
  if formats.length = 0 then
    if streamType = StreamType.a then
      addQualityOption [] "audio" "Best available (audio)" false
    else
      let sel := addQualityOption [] "best" "Best available" false
      let sel := addQualityOption sel "1080p" "Up to 1080p" false
      let sel := addQualityOption sel "720p" "Up to 720p" false
      let sel := addQualityOption sel "480p" "Up to 480p" false
      if streamType = StreamType.av then addQualityOption sel "audio" "Audio only" false
      else sel
  else
    let sel :=
      if streamType = StreamType.a then
        addQualityOption [] "audio" "Best available (audio)" false
      else addQualityOption [] "best" "Best available" false
    let list := rankFormats streamType formats
    if list.length = 0 then
      addQualityOption sel "" "No formats of this type; try a different type" true
    else
      sel ++ list.map (formatOption streamType)

/-- The options of a select whose value names a concrete format. -/
def formatEntries (sel : List QualityOption) : List QualityOption :=
  sel.filter (fun o => startsWith o.value "format:")

/-- The first descriptor of the scenario: format 137, video only, 1080 lines. -/
def format137 : Format :=
  ⟨some "137", some "avc1", some "none", none, none, some 1080, none, none, none⟩

/-- The second descriptor of the scenario: format 140, audio only, 128 kbps. -/
def format140 : Format :=
  ⟨some "140", some "none", some "mp4a", none, some 128, none, none, none, none⟩

/-- A descriptor whose audio codec is spelled in upper case. -/
def formatUpperNone : Format :=
  ⟨some "251", none, some "NONE", some "webm", some 128, none, none, none, none⟩

/-- A video whose probed catalog is `formats`. -/
def videoWith (formats : List (Option Format)) : Video :=
  ⟨some "clip", none, some "https://example.com/watch", some 120, some formats⟩

/-- One thing that can happen to `buttonState` after start-up. -/
inductive Action where
  /-- A call of `startDownload(which)` with the given selection, tab and controls. -/
  | start (which : Which) (selectedVideo : Option Video) (currentTab : Tab)
      (controls : Controls)
  /-- The callback of `startDownload` runs with `lastError` and `response`. -/
  | acknowledge (which : Which) (lastError : Option String) (response : Option Response)
  /-- The message listener of the popup runs on `msg`. -/
  | event (msg : Option RuntimeMsg)
  /-- The call `resetButton(which)`. -/
  | reset (which : Which)
deriving DecidableEq

/-- The `buttonState` after one action. -/
def Action.apply (bs : ButtonState) : Action → ButtonState
  | Action.start which selectedVideo currentTab controls =>
    (startDownload ⟨bs, selectedVideo, currentTab, controls⟩ which).1
  | Action.acknowledge which lastError response => onStartResponse bs which lastError response
  | Action.event msg => onMessage bs msg
  | Action.reset which => resetButton bs which

/-- The replies the background script gives: its only successful reply to a download
request is `sendResponse({ ok: true, jobId })`, so a reply with `ok` carries a job id. -/
def Action.fromBackground : Action → Bool
  | Action.acknowledge _ _ (some r) => !r.ok || r.jobId.isSome
  | _ => true

/-- The `buttonState` after a sequence of actions from start-up. -/
def runActions (actions : List Action) : ButtonState :=
  actions.foldl Action.apply initialButtonState

/-- The invariant of the download slots: a busy slot has a job id. -/
def busyHasJob (bs : ButtonState) : Bool :=
  (!bs.full.busy || bs.full.jobId.isSome) && (!bs.trimmed.busy || bs.trimmed.jobId.isSome)

/-- A muxed descriptor: format 18 with a video and an audio codec, 360 lines. -/
def format18 : Format :=
  ⟨some "18", some "avc1", some "mp4a", none, none, some 360, none, none, none⟩

/-- A sample video: a page URL with a known duration of two minutes, not yet probed. -/
def sampleVideo : Video :=
  ⟨some "clip", none, some "https://example.com/watch", some 120, none⟩

/-- A sample popup state: `sampleVideo` selected, trimming enabled, the sliders at
`start` and `end_`, and the given `buttonState`. -/
def sampleState (bs : ButtonState) (start end_ : ℚ) : State :=
  { buttonState := bs,
    selectedVideo := some sampleVideo,
    currentTab := ⟨some "https://example.com/watch", some "Example"⟩,
    controls := ⟨some true, JsNumber.finite start, JsNumber.finite end_, StreamType.av,
      some "best", some "mp4"⟩ }

/-- A sample `buttonState` in which the trimmed button is busy with job `"j1"`. -/
def sampleBusyTrimmed : ButtonState :=
  { initialButtonState with
    trimmed := ⟨some "j1", true, true, false, false, true, Caption.downloading 0⟩ }

end Popup

/-! ## Theorems -/

namespace Background

theorem makeJobId_ne_empty (now : Nat) (hex : String) : makeJobId now hex ≠ "" := by
  intro h
  have := congrArg String.length h
  simp [makeJobId, String.length_append] at this
  exact absurd this.1.2 (by decide)

theorem truthyStr_makeJobId (now : Nat) (hex : String) :
    truthyStr (some (makeJobId now hex)) = true := by
  simp [truthyStr, makeJobId_ne_empty]

theorem truthyStr_some {o : Option String} (h : truthyStr o = true) :
    ∃ j, o = some j ∧ j ≠ "" := by
  cases o with
  | none => simp [truthyStr] at h
  | some j => exact ⟨j, rfl, by simpa [truthyStr] using h⟩

theorem pending_own_delete_self (p : PendingJobs) (j : String) : (p.delete j).own j = none := by
  induction p with
  | nil => rfl
  | cons e p ih =>
    obtain ⟨k, v⟩ := e
    by_cases hk : k = j
    · simpa [PendingJobs.delete, hk] using ih
    · simpa [PendingJobs.delete, PendingJobs.own, hk] using ih

theorem pending_own_delete_of_ne (p : PendingJobs) {j k : String} (h : k ≠ j) :
    (p.delete j).own k = p.own k := by
  induction p with
  | nil => rfl
  | cons e p ih =>
    obtain ⟨a, v⟩ := e
    by_cases ha : a = j
    · have hak : ¬ a = k := fun h1 => h (h1.symm.trans ha)
      simpa [PendingJobs.delete, PendingJobs.own, ha, hak, Ne.symm h] using ih
    · by_cases hk : a = k
      · subst hk
        simp [PendingJobs.delete, PendingJobs.own, ha]
      · simpa [PendingJobs.delete, PendingJobs.own, ha, hk] using ih

theorem pending_own_set_self (p : PendingJobs) (j : String) (cb : Nat) :
    (p.set j cb).own j = some cb := by
  induction p with
  | nil => simp [PendingJobs.set, PendingJobs.own]
  | cons e p ih =>
    obtain ⟨k, v⟩ := e
    by_cases hk : k = j
    · simp [PendingJobs.set, PendingJobs.own, hk]
    · simpa [PendingJobs.set, PendingJobs.own, hk] using ih

theorem makeJobId_not_inherited (now : Nat) (hex : String) :
    makeJobId now hex ∉ objectPrototypeKeys := by
  intro h
  have hdash : Char.ofNat 45 ∈ (makeJobId now hex).toList := by
    simp [makeJobId, String.toList]
  have hno : ∀ k ∈ objectPrototypeKeys, Char.ofNat 45 ∉ k.toList := by decide
  exact hno _ h hdash

theorem get_of_own (p : PendingJobs) {j : String} {cb : Nat} (h : p.own j = some cb) :
    p.get j = Property.handler cb := by
  simp [PendingJobs.get, h]

theorem get_of_not_own (p : PendingJobs) {j : String} (h : p.own j = none)
    (hk : j ∉ objectPrototypeKeys) : p.get j = Property.undefined := by
  simp [PendingJobs.get, h, hk]

theorem get_of_inherited (p : PendingJobs) {j : String} (h : p.own j = none)
    (hk : j ∈ objectPrototypeKeys) : p.get j = Property.inherited := by
  simp [PendingJobs.get, h, hk]

theorem ensurePort_pendingJobs (s : State) : (ensurePort s).1.pendingJobs = s.pendingJobs := by
  unfold ensurePort
  split <;> rfl

theorem onNativeMessage_of_handler (s : State) (m : NativeMsg) {j : String} {cb : Nat}
    (hj : m.jobId = some j) (hne : j ≠ "") (hcb : s.pendingJobs.get j = Property.handler cb) :
    onNativeMessage s (some m)
      = ({ s with pendingJobs := s.pendingJobs.delete j }, [Effect.respond cb m]) := by
  have ht : truthyStr (some j) = true := by simp [truthyStr, hne]
  simp only [onNativeMessage, hj, ht, Option.getD_some, hcb]
  rfl

theorem onNativeMessage_of_no_handler (s : State) (m : NativeMsg) {j : String}
    (hj : m.jobId = some j) (hne : j ≠ "") (hcb : s.pendingJobs.get j = Property.undefined) :
    onNativeMessage s (some m) = (s, [Effect.broadcast m]) := by
  have ht : truthyStr (some j) = true := by simp [truthyStr, hne]
  simp only [onNativeMessage, hj, ht, Option.getD_some, hcb]
  rfl

theorem onNativeMessage_of_inherited (s : State) (m : NativeMsg) {j : String}
    (hj : m.jobId = some j) (hne : j ≠ "") (hcb : s.pendingJobs.get j = Property.inherited) :
    onNativeMessage s (some m)
      = ({ s with pendingJobs := s.pendingJobs.delete j }, [Effect.callInherited j m]) := by
  have ht : truthyStr (some j) = true := by simp [truthyStr, hne]
  simp only [onNativeMessage, hj, ht, Option.getD_some, hcb]
  rfl

/-- Away from the names of `Object.prototype`, an inbound native message that carries a
job id goes to exactly one destination: the handler registered under the job id if there
is one, and then nothing is broadcast; otherwise the broadcast, and then no handler runs. -/
theorem single_destination_off_prototype (s : State) (m : NativeMsg) (j : String)
    (hj : m.jobId = some j) (hne : j ≠ "") (hk : j ∉ objectPrototypeKeys) :
    (∀ cb, s.pendingJobs.own j = some cb →
        (onNativeMessage s (some m)).2 = [Effect.respond cb m] ∧
        handlersInvoked (onNativeMessage s (some m)).2 = [cb] ∧
        broadcasts (onNativeMessage s (some m)).2 = []) ∧
    (s.pendingJobs.own j = none →
        (onNativeMessage s (some m)).2 = [Effect.broadcast m] ∧
        handlersInvoked (onNativeMessage s (some m)).2 = [] ∧
        broadcasts (onNativeMessage s (some m)).2 = [m]) ∧
    (handlersInvoked (onNativeMessage s (some m)).2).length +
      (broadcasts (onNativeMessage s (some m)).2).length = 1 := by
  refine ⟨?_, ?_, ?_⟩
  · intro cb hcb
    rw [onNativeMessage_of_handler s m hj hne (get_of_own _ hcb)]
    simp [handlersInvoked, broadcasts]
  · intro hnone
    rw [onNativeMessage_of_no_handler s m hj hne (get_of_not_own _ hnone hk)]
    simp [handlersInvoked, broadcasts]
  · cases hg : s.pendingJobs.own j with
    | none =>
      rw [onNativeMessage_of_no_handler s m hj hne (get_of_not_own _ hg hk)]
      simp [handlersInvoked, broadcasts]
    | some cb =>
      rw [onNativeMessage_of_handler s m hj hne (get_of_own _ hg)]
      simp [handlersInvoked, broadcasts]

/-- A native message whose job id names a member of `Object.prototype`, with no handler
registered under it, reaches neither a handler nor the popups, whatever else is pending. -/
theorem inherited_name_is_swallowed (s : State) (m : NativeMsg) (j : String)
    (hj : m.jobId = some j) (hk : j ∈ objectPrototypeKeys)
    (hown : s.pendingJobs.own j = none) :
    (onNativeMessage s (some m)).2 = [Effect.callInherited j m] ∧
    handlersInvoked (onNativeMessage s (some m)).2 = [] ∧
    broadcasts (onNativeMessage s (some m)).2 = [] := by
  have hne : j ≠ "" := by
    intro h0
    rw [h0] at hk
    revert hk
    decide
  rw [onNativeMessage_of_inherited s m hj hne (get_of_inherited _ hown hk)]
  simp [handlersInvoked, broadcasts]

/-- C1: the listener at the native message with job id `"constructor"` and event
`"progress"`, with `pendingJobs` empty. The read `pendingJobs[jobId]` finds the member
inherited from `Object.prototype`, the listener applies it to the message and returns:
no registered handler runs and nothing is broadcast, so the message reaches neither
destination. The same happens for `"toString"` and `"__proto__"`. -/
theorem prototype_job_id_reaches_no_destination :
    PendingJobs.get [] "constructor" = Property.inherited ∧
    onNativeMessage ⟨true, []⟩ (some ⟨some "constructor", some "progress", false, ""⟩)
      = (⟨true, []⟩,
          [Effect.callInherited "constructor" ⟨some "constructor", some "progress", false, ""⟩]) ∧
    handlersInvoked
      (onNativeMessage ⟨true, []⟩ (some ⟨some "constructor", some "progress", false, ""⟩)).2
      = [] ∧
    broadcasts
      (onNativeMessage ⟨true, []⟩ (some ⟨some "constructor", some "progress", false, ""⟩)).2
      = [] ∧
    (handlersInvoked
      (onNativeMessage ⟨true, []⟩ (some ⟨some "constructor", some "progress", false, ""⟩)).2
      ).length +
      (broadcasts
        (onNativeMessage ⟨true, []⟩ (some ⟨some "constructor", some "progress", false, ""⟩)).2
      ).length = 0 ∧
    broadcasts
      (onNativeMessage ⟨true, []⟩ (some ⟨some "toString", some "progress", false, ""⟩)).2
      = [] ∧
    broadcasts
      (onNativeMessage ⟨true, []⟩ (some ⟨some "__proto__", some "progress", false, ""⟩)).2
      = [] := by
  refine ⟨by decide, by decide, by decide, by decide, by decide, by decide, by decide⟩

/-- C2: a job id registered once by a PROBE_INFO or CHOOSE_SAVE_DIR request, followed by
two native messages carrying it. The first message invokes the registered handler and
removes the entry; the second finds no handler and is broadcast; over both messages the
handler runs exactly once. -/
theorem pending_handler_invoked_once (s : State) (req : Request) (cb now : Nat)
    (hex : String) (m1 m2 : NativeMsg)
    (hreq : req.type = some "PROBE_INFO" ∨ req.type = some "CHOOSE_SAVE_DIR")
    (h1 : m1.jobId = some (makeJobId now hex)) (h2 : m2.jobId = some (makeJobId now hex)) :
    ((onRuntimeMessage s (some req) cb now hex).1.pendingJobs.get (makeJobId now hex)
        = Property.handler cb) ∧
    (onNativeMessage (onRuntimeMessage s (some req) cb now hex).1 (some m1)).2
        = [Effect.respond cb m1] ∧
    ((onNativeMessage (onRuntimeMessage s (some req) cb now hex).1 (some m1)).1.pendingJobs.get
        (makeJobId now hex) = Property.undefined) ∧
    (onNativeMessage
        (onNativeMessage (onRuntimeMessage s (some req) cb now hex).1 (some m1)).1
        (some m2)).2 = [Effect.broadcast m2] ∧
    handlersInvoked
        ((onNativeMessage (onRuntimeMessage s (some req) cb now hex).1 (some m1)).2 ++
          (onNativeMessage
            (onNativeMessage (onRuntimeMessage s (some req) cb now hex).1 (some m1)).1
            (some m2)).2) = [cb] := by
  have hreg : (onRuntimeMessage s (some req) cb now hex).1.pendingJobs.get (makeJobId now hex)
      = Property.handler cb := by
    apply get_of_own
    rcases hreq with ht | ht <;>
      simp [onRuntimeMessage, ht, truthyStr, pending_own_set_self]
  have hfirst : onNativeMessage (onRuntimeMessage s (some req) cb now hex).1 (some m1)
      = ({ (onRuntimeMessage s (some req) cb now hex).1 with
            pendingJobs := (onRuntimeMessage s (some req) cb now hex).1.pendingJobs.delete
              (makeJobId now hex) }, [Effect.respond cb m1]) :=
    onNativeMessage_of_handler _ m1 h1 (makeJobId_ne_empty now hex) hreg
  have hgone : (onNativeMessage (onRuntimeMessage s (some req) cb now hex).1
      (some m1)).1.pendingJobs.get (makeJobId now hex) = Property.undefined := by
    rw [hfirst]
    exact get_of_not_own _ (pending_own_delete_self _ _) (makeJobId_not_inherited now hex)
  have hsecond : onNativeMessage
      (onNativeMessage (onRuntimeMessage s (some req) cb now hex).1 (some m1)).1
      (some m2) = ((onNativeMessage (onRuntimeMessage s (some req) cb now hex).1 (some m1)).1,
        [Effect.broadcast m2]) :=
    onNativeMessage_of_no_handler _ m2 h2 (makeJobId_ne_empty now hex) hgone
  refine ⟨hreg, by rw [hfirst], hgone, by rw [hsecond], ?_⟩
  rw [hsecond, hfirst]
  simp [handlersInvoked]

theorem pending_handler_invoked_once_witness :
    handlersInvoked
        ((onNativeMessage (onRuntimeMessage ⟨false, []⟩ (some ⟨some "PROBE_INFO", ""⟩) 7 1700 "a3f").1
          (some ⟨some (makeJobId 1700 "a3f"), none, true, "first"⟩)).2 ++
          (onNativeMessage
            (onNativeMessage
              (onRuntimeMessage ⟨false, []⟩ (some ⟨some "PROBE_INFO", ""⟩) 7 1700 "a3f").1
              (some ⟨some (makeJobId 1700 "a3f"), none, true, "first"⟩)).1
            (some ⟨some (makeJobId 1700 "a3f"), none, true, "second"⟩)).2) = [7] :=
  (pending_handler_invoked_once ⟨false, []⟩ ⟨some "PROBE_INFO", ""⟩ 7 1700 "a3f"
    ⟨some (makeJobId 1700 "a3f"), none, true, "first"⟩
    ⟨some (makeJobId 1700 "a3f"), none, true, "second"⟩ (Or.inl rfl) rfl rfl).2.2.2.2

end Background

theorem mathRound_zero : mathRound 0 = 0 := by
  unfold mathRound
  rw [Int.floor_eq_iff]
  norm_num

namespace Popup

theorem safePercent_zero : safePercent (JsValue.number (JsNumber.finite 0)) = 0 := by
  simp [safePercent, mathRound_zero]

theorem get_set_self (bs : ButtonState) (w : Which) (b : Button) : (bs.set w b).get w = b := by
  cases w <;> rfl

theorem get_set_of_ne (bs : ButtonState) {w w' : Which} (b : Button) (h : w' ≠ w) :
    (bs.set w b).get w' = bs.get w' := by
  cases w <;> cases w' <;> first | rfl | exact absurd rfl h

theorem routeEvent_of_ne (m : RuntimeMsg) (bs : ButtonState) (w : Which)
    (h : (bs.get w).jobId ≠ m.jobId) : routeEvent m bs w = bs := by
  simp [routeEvent, h]

theorem routeEvent_get_of_ne (m : RuntimeMsg) (bs : ButtonState) {w w' : Which} (h : w' ≠ w) :
    (routeEvent m bs w).get w' = bs.get w' := by
  unfold routeEvent setButtonProgress setButtonDone setButtonError
  repeat' split
  all_goals first | rfl | exact get_set_of_ne _ _ h

theorem routeEvent_get_congr (m : RuntimeMsg) {bs bs' : ButtonState} (w : Which)
    (h : bs.get w = bs'.get w) : (routeEvent m bs w).get w = (routeEvent m bs' w).get w := by
  unfold routeEvent setButtonProgress setButtonDone setButtonError
  rw [h]
  repeat' split
  all_goals first | exact h | simp only [get_set_self]

theorem onMessage_eq_fold (bs : ButtonState) (m : RuntimeMsg) (hn : m.fromNative = true)
    (hj : truthyStr m.jobId = true) :
    onMessage bs (some m) = routeEvent m (routeEvent m bs Which.full) Which.trimmed := by
  simp [onMessage, hn, hj]

theorem onMessage_get (bs : ButtonState) (m : RuntimeMsg) (hn : m.fromNative = true)
    (hj : truthyStr m.jobId = true) (w : Which) :
    (onMessage bs (some m)).get w = (routeEvent m bs w).get w := by
  rw [onMessage_eq_fold bs m hn hj]
  cases w with
  | full => exact routeEvent_get_of_ne m _ (by decide)
  | trimmed => exact routeEvent_get_congr m _ (routeEvent_get_of_ne m bs (by decide))

theorem onMessage_get_cases (bs : ButtonState) (m : Option RuntimeMsg) (w : Which) :
    (onMessage bs m).get w = bs.get w ∨
      ∃ r, m = some r ∧ r.fromNative = true ∧ truthyStr r.jobId = true ∧
        (onMessage bs m).get w = (routeEvent r bs w).get w := by
  cases m with
  | none => exact Or.inl rfl
  | some r =>
    by_cases hn : r.fromNative = true
    · by_cases hj : truthyStr r.jobId = true
      · exact Or.inr ⟨r, rfl, hn, hj, onMessage_get bs r hn hj w⟩
      · left
        simp [onMessage, hj]
    · left
      simp [onMessage, hn]

/-- C3: a native event whose job id differs from a slot's current job id leaves that slot
as it was (job id, busy flag and button alike). In particular, once a start on slot
`full` is acknowledged with `jobA`, a complete event carrying `jobB ≠ jobA` leaves the
slot busy with job id `jobA`. -/
theorem mismatched_event_leaves_slot (bs : ButtonState) (msg : RuntimeMsg) (which : Which)
    (jobA jobB : String) (h : (bs.get which).jobId ≠ msg.jobId) (hAB : jobB ≠ jobA) :
    (onMessage bs (some msg)).get which = bs.get which ∧
    ((onMessage
        (onStartResponse bs Which.full none (some ⟨true, some jobA, none⟩))
        (some { msg with fromNative := true, jobId := some jobB, event := some "complete" })
      ).full.busy = true) ∧
    ((onMessage
        (onStartResponse bs Which.full none (some ⟨true, some jobA, none⟩))
        (some { msg with fromNative := true, jobId := some jobB, event := some "complete" })
      ).full.jobId = some jobA) := by
  have frame : ∀ (b : ButtonState) (m : RuntimeMsg) (w : Which),
      (b.get w).jobId ≠ m.jobId → (onMessage b (some m)).get w = b.get w := by
    intro b m w hne
    rcases onMessage_get_cases b (some m) w with h0 | ⟨r, hr, -, -, h1⟩
    · exact h0
    · cases hr
      rw [h1, routeEvent_of_ne m b w hne]
  have hack : (onStartResponse bs Which.full none (some ⟨true, some jobA, none⟩)).get Which.full
      = { bs.full with
          jobId := some jobA, btnBusy := true, btnSuccess := false, btnError := false,
          disabled := true, text := Caption.downloading 0, busy := true } := by
    simp [onStartResponse, setButtonProgress, ButtonState.get, ButtonState.set,
      safePercent_zero]
  have hkeep := frame (onStartResponse bs Which.full none (some ⟨true, some jobA, none⟩))
    { msg with fromNative := true, jobId := some jobB, event := some "complete" } Which.full
    (by rw [hack]; simpa using fun h1 => hAB h1.symm)
  refine ⟨frame bs msg which h, ?_, ?_⟩
  · have := congrArg Button.busy hkeep
    rw [hack] at this
    simpa [ButtonState.get] using this
  · have := congrArg Button.jobId hkeep
    rw [hack] at this
    simpa [ButtonState.get] using this

theorem mismatched_event_leaves_slot_witness :
    (initialButtonState.get Which.full).jobId ≠ some "jobB" ∧ "jobB" ≠ "jobA" ∧
    (onMessage
        (onStartResponse initialButtonState Which.full none (some ⟨true, some "jobA", none⟩))
        (some ⟨true, some "jobB", some "complete", JsValue.undefined, none, none⟩)
      ).full.jobId = some "jobA" :=
  ⟨by decide, by decide,
    (mismatched_event_leaves_slot initialButtonState
      ⟨true, some "jobB", some "complete", JsValue.undefined, none, none⟩ Which.full
      "jobA" "jobB" (by decide) (by decide)).2.2⟩

theorem le_orElse_zero {e x : JsNumber} (h : e.le x = true) :
    e.le (x.orElse (JsNumber.finite 0)) = true := by
  unfold JsNumber.orElse
  split
  · exact h
  · next hx =>
    cases x with
    | finite q =>
      have hq : q = 0 := by simpa [JsNumber.truthy] using hx
      subst hq
      exact h
    | nan => cases e <;> simp [JsNumber.le] at h
    | posInf => simp [JsNumber.truthy] at hx
    | negInf => simp [JsNumber.truthy] at hx

theorem startDownload_of_busy (s : State) (which : Which)
    (h : (s.buttonState.get which).busy = true) :
    startDownload s which = (s.buttonState, []) := by
  unfold startDownload
  cases s.selectedVideo with
  | none => rfl
  | some v => simp [h]

/-- The claim of C4 fails on a busy slot: with the trimmed button busy with job `"j1"`,
trimming enabled and the sliders at start 10 and end 5, `startDownload` returns at the
busy guard. Nothing is sent, and the slot stays busy with its job id instead of going
to the error state. -/
theorem trimmed_start_on_busy_slot_shows_no_error :
    (startDownload (sampleState sampleBusyTrimmed 10 5) Which.trimmed).2 = [] ∧
    (startDownload (sampleState sampleBusyTrimmed 10 5) Which.trimmed).1.trimmed.busy = true ∧
    (startDownload (sampleState sampleBusyTrimmed 10 5) Which.trimmed).1.trimmed.jobId
      = some "j1" ∧
    (startDownload (sampleState sampleBusyTrimmed 10 5) Which.trimmed).1.trimmed.showsError
      = false := by
  refine ⟨rfl, rfl, rfl, rfl⟩

/-- With both sliders at 0 on an idle slot, the end bound read by `startDownload` is
replaced by the known duration, so the request is sent with start 0 and end 120. -/
theorem trimmed_start_zero_end_is_sent :
    ((startDownload (sampleState initialButtonState 0 0) Which.trimmed).2.map
        (fun p => (p.type, p.start, p.end_)))
      = [("DOWNLOAD_TRIMMED", some (JsNumber.finite 0), some (JsNumber.finite 120))] := by
  norm_num [startDownload, sampleState, sampleVideo, initialButtonState, ButtonState.get,
    JsNumber.orElse, JsNumber.truthy, JsNumber.le, maxDuration, buildPayload]

/-- C4 (amended): a start of the trimmed slot that is not busy, with a selected video,
trimming enabled, an end bound that is a non-zero number, and end ≤ start, fails with the
validation error. The slot shows the error state with job id null and busy false, the
other slot is untouched, and no message is sent. On a busy slot the call returns at the
busy guard: nothing is sent and the state is unchanged. -/
theorem trimmed_start_rejects_bad_bounds (s : State) (video : Video)
    (hv : s.selectedVideo = some video) (hidle : s.buttonState.trimmed.busy = false)
    (htrim : s.controls.enableTrim = some true)
    (hend : s.controls.endRange.truthy = true)
    (hle : s.controls.endRange.le s.controls.startRange = true) :
    (startDownload s Which.trimmed).2 = [] ∧
    (startDownload s Which.trimmed).1.trimmed.jobId = none ∧
    (startDownload s Which.trimmed).1.trimmed.busy = false ∧
    (startDownload s Which.trimmed).1.trimmed.showsError = true ∧
    (startDownload s Which.trimmed).1.full = s.buttonState.full ∧
    (∀ busyState : State, busyState.buttonState.trimmed.busy = true →
      startDownload busyState Which.trimmed = (busyState.buttonState, [])) := by
  have hle2 := le_orElse_zero hle
  have hrun : startDownload s Which.trimmed
      = (setButtonError s.buttonState Which.trimmed "End must be greater than start.", []) := by
    simp [startDownload, hv, ButtonState.get, hidle, htrim, JsNumber.orElse, hend]
    simpa [JsNumber.orElse] using hle2
  have hfail : (startDownload s Which.trimmed).2 = [] ∧
      (startDownload s Which.trimmed).1.trimmed.jobId = none ∧
      (startDownload s Which.trimmed).1.trimmed.busy = false ∧
      (startDownload s Which.trimmed).1.trimmed.showsError = true ∧
      (startDownload s Which.trimmed).1.full = s.buttonState.full := by
    rw [hrun]
    simp [setButtonError, ButtonState.set, ButtonState.get, Button.showsError]
  exact ⟨hfail.1, hfail.2.1, hfail.2.2.1, hfail.2.2.2.1, hfail.2.2.2.2,
    fun busyState hb => startDownload_of_busy busyState Which.trimmed hb⟩

theorem trimmed_start_rejects_bad_bounds_witness :
    (startDownload (sampleState initialButtonState 10 5) Which.trimmed).2 = [] ∧
    (startDownload (sampleState initialButtonState 10 5) Which.trimmed).1.trimmed.showsError
      = true :=
  have h := trimmed_start_rejects_bad_bounds (sampleState initialButtonState 10 5) sampleVideo
    rfl rfl rfl (by simp [sampleState, JsNumber.truthy])
    (by simp [sampleState, JsNumber.le]; norm_num)
  ⟨h.1, h.2.2.2.1⟩

theorem routeEvent_keeps_job (r : RuntimeMsg) (bs : ButtonState) (w : Which)
    (hc : r.event ≠ some "complete") (he : r.event ≠ some "error")
    (hb : (bs.get w).busy = true) :
    ((routeEvent r bs w).get w).busy = true ∧
      ((routeEvent r bs w).get w).jobId = (bs.get w).jobId := by
  unfold routeEvent setButtonProgress
  repeat' split
  all_goals first
    | exact ⟨hb, rfl⟩
    | (rw [get_set_self]; exact ⟨rfl, rfl⟩)

theorem onMessage_keeps_job (m : Option RuntimeMsg) (bs : ButtonState) (w : Which)
    (hm : ∀ r, m = some r → r.event ≠ some "complete" ∧ r.event ≠ some "error")
    (hb : (bs.get w).busy = true) :
    ((onMessage bs m).get w).busy = true ∧ ((onMessage bs m).get w).jobId = (bs.get w).jobId := by
  rcases onMessage_get_cases bs m w with h0 | ⟨r, hr, -, -, h1⟩
  · rw [h0]
    exact ⟨hb, rfl⟩
  · rw [h1]
    exact routeEvent_keeps_job r bs w (hm r hr).1 (hm r hr).2 hb

theorem foldl_onMessage_keeps_job (msgs : List (Option RuntimeMsg)) (w : Which) :
    ∀ (bs : ButtonState),
      (∀ m ∈ msgs, ∀ r, m = some r → r.event ≠ some "complete" ∧ r.event ≠ some "error") →
      (bs.get w).busy = true →
      ((msgs.foldl onMessage bs).get w).busy = true ∧
        ((msgs.foldl onMessage bs).get w).jobId = (bs.get w).jobId := by
  induction msgs with
  | nil => intro bs _ hb; exact ⟨hb, rfl⟩
  | cons m rest ih =>
    intro bs hm hb
    have h1 := onMessage_keeps_job m bs w (hm m (List.mem_cons_self _ _)) hb
    have h2 := ih (onMessage bs m) (fun x hx => hm x (List.mem_cons_of_mem _ hx)) h1.1
    exact ⟨h2.1, h2.2.trans h1.2⟩

/-- C5: two starts on the idle slot `full` with no acknowledgement in between. The first
start sends a download message and leaves the slot not busy, because busy is set only in
the acknowledgement callback; the second start passes the busy guard and sends a second
download message; once both acknowledgements have run the slot holds the second job id,
so the events of the first job are ignored. -/
theorem second_start_before_ack_is_sent :
    (startDownload (sampleState initialButtonState 0 60) Which.full).1 = initialButtonState ∧
    (startDownload (sampleState initialButtonState 0 60) Which.full).2.map Payload.type
      = ["DOWNLOAD_FULL"] ∧
    (startDownload
        (sampleState (startDownload (sampleState initialButtonState 0 60) Which.full).1 0 60)
        Which.full).2.map Payload.type = ["DOWNLOAD_FULL"] ∧
    (onStartResponse
        (onStartResponse initialButtonState Which.full none (some ⟨true, some "j1", none⟩))
        Which.full none (some ⟨true, some "j2", none⟩)).full.jobId = some "j2" := by
  have h1 : startDownload (sampleState initialButtonState 0 60) Which.full
      = (initialButtonState,
          [buildPayload (sampleState initialButtonState 0 60) sampleVideo Which.full
            (JsNumber.finite 0) (maxDuration sampleVideo)]) := by
    simp [startDownload, sampleState, initialButtonState, ButtonState.get]
  refine ⟨by rw [h1], by rw [h1]; simp [buildPayload], ?_, ?_⟩
  · rw [h1]
    simp only [h1]
    simp [buildPayload]
  · simp [onStartResponse, setButtonProgress, ButtonState.get, ButtonState.set]

/-- Once a start on a slot has been acknowledged with job id `j1`, and only native events
other than complete and error have been handled since, a further start on that slot is
rejected: it sends no message, changes nothing, and the slot's job id is still `j1`. -/
theorem second_start_after_ack_rejected (s : State) (which : Which) (j1 : String)
    (err : Option String) (msgs : List (Option RuntimeMsg))
    (hm : ∀ m ∈ msgs, ∀ r, m = some r → r.event ≠ some "complete" ∧ r.event ≠ some "error") :
    startDownload
        { s with
          buttonState := (msgs.foldl onMessage
            (onStartResponse s.buttonState which none (some ⟨true, some j1, err⟩))) } which
      = (msgs.foldl onMessage
          (onStartResponse s.buttonState which none (some ⟨true, some j1, err⟩)), []) ∧
    ((msgs.foldl onMessage
        (onStartResponse s.buttonState which none (some ⟨true, some j1, err⟩))).get which).jobId
      = some j1 := by
  have hack : ((onStartResponse s.buttonState which none (some ⟨true, some j1, err⟩)).get
      which).busy = true ∧
      ((onStartResponse s.buttonState which none (some ⟨true, some j1, err⟩)).get which).jobId
        = some j1 := by
    simp [onStartResponse, setButtonProgress, get_set_self]
  have hkeep := foldl_onMessage_keeps_job msgs which _ hm hack.1
  exact ⟨startDownload_of_busy _ which hkeep.1, hkeep.2.trans hack.2⟩

theorem second_start_after_ack_rejected_witness :
    (startDownload
        { sampleState initialButtonState 0 60 with
          buttonState := ([some ⟨true, some "j1", some "progress",
              JsValue.number (JsNumber.finite 40), none, none⟩].foldl onMessage
            (onStartResponse initialButtonState Which.full none (some ⟨true, some "j1", none⟩))) }
        Which.full).2 = [] :=
  congrArg Prod.snd
    (second_start_after_ack_rejected (sampleState initialButtonState 0 60) Which.full "j1" none
      [some ⟨true, some "j1", some "progress", JsValue.number (JsNumber.finite 40), none, none⟩]
      (by
        intro m hm r hr
        simp only [List.mem_singleton] at hm
        subst hm
        cases hr
        exact ⟨by decide, by decide⟩)).1

/-- C6: a native complete or error event (forwarded with `fromNative`, non-empty job id)
carrying the job id `j` of a slot clears that slot's job id to null and sets busy to
false, and the slot accepts a start again: with a video selected, a start on `full`, or
on `trimmed` with trimming enabled and end after start, sends one message. The other
slot keeps its state provided its job id is not `j`. -/
theorem terminal_event_frees_slot (bs : ButtonState) (msg : RuntimeMsg) (which : Which)
    (j : String) (hn : msg.fromNative = true) (hj : msg.jobId = some j) (hne : j ≠ "")
    (hslot : (bs.get which).jobId = some j)
    (hev : msg.event = some "complete" ∨ msg.event = some "error") :
    ((onMessage bs (some msg)).get which).jobId = none ∧
    ((onMessage bs (some msg)).get which).busy = false ∧
    (∀ (s : State) (video : Video), s.buttonState = onMessage bs (some msg) →
      s.selectedVideo = some video →
      (which = Which.full ∨
        (s.controls.enableTrim = some true ∧
          (s.controls.endRange.orElse (maxDuration video)).le
            (s.controls.startRange.orElse (JsNumber.finite 0)) = false)) →
      (startDownload s which).2.length = 1) ∧
    (∀ other, other ≠ which → (bs.get other).jobId ≠ some j →
      (onMessage bs (some msg)).get other = bs.get other) := by
  have ht : truthyStr msg.jobId = true := by simp [hj, truthyStr, hne]
  have hget := onMessage_get bs msg hn ht
  have hcleared : ((onMessage bs (some msg)).get which).jobId = none ∧
      ((onMessage bs (some msg)).get which).busy = false := by
    rw [hget which]
    rcases hev with he | he <;>
      simp [routeEvent, hslot, hj, he, setButtonDone, setButtonError, get_set_self]
  refine ⟨hcleared.1, hcleared.2, ?_, ?_⟩
  · intro s video hs hv hok
    have hidle : (s.buttonState.get which).busy = false := by rw [hs]; exact hcleared.2
    rcases hok with hfull | ⟨htrim, hbounds⟩
    · subst hfull
      simp [startDownload, hv, hidle]
    · cases which with
      | full => simp [startDownload, hv, hidle]
      | trimmed => simp [startDownload, hv, hidle, htrim, hbounds]
  · intro other _ hother
    rw [hget other, routeEvent_of_ne msg bs other (by rw [hj]; exact hother)]

theorem terminal_event_frees_slot_witness :
    (sampleBusyTrimmed.get Which.trimmed).jobId = some "j1" ∧
    ((onMessage sampleBusyTrimmed
        (some ⟨true, some "j1", some "complete", JsValue.undefined, some "/d/a.mp4", none⟩)).get
      Which.trimmed).busy = false :=
  ⟨rfl,
    (terminal_event_frees_slot sampleBusyTrimmed
      ⟨true, some "j1", some "complete", JsValue.undefined, some "/d/a.mp4", none⟩
      Which.trimmed "j1" rfl rfl (by decide) rfl (Or.inl rfl)).2.1⟩

theorem startsWith_format (id : String) : startsWith ("format:" ++ id) "format:" = true := by
  simp [startsWith, String.toList]

theorem formatEntries_map_formatOption (st : StreamType) (l : List Format) :
    formatEntries (l.map (formatOption st)) = l.map (formatOption st) := by
  unfold formatEntries
  rw [List.filter_eq_self]
  intro o ho
  obtain ⟨f, -, rfl⟩ := List.mem_map.mp ho
  exact startsWith_format _

theorem formatEntries_append (a b : List QualityOption) :
    formatEntries (a ++ b) = formatEntries a ++ formatEntries b := by
  simp [formatEntries]

theorem formatEntries_buildQualitySelect (st : StreamType) (video : Video) :
    formatEntries (buildQualitySelect st video)
      = (rankFormats st (withFormatId (video._formats.getD []))).map (formatOption st) := by
  unfold buildQualitySelect
  by_cases h0 : (withFormatId (video._formats.getD [])).length = 0
  · have hnil : withFormatId (video._formats.getD []) = [] := List.length_eq_zero.mp h0
    simp only [h0, if_true, hnil]
    cases st <;> simp [rankFormats, classifyFormats, addQualityOption] <;> decide
  · simp only [h0, if_false]
    by_cases h1 : (rankFormats st (withFormatId (video._formats.getD []))).length = 0
    · have hnil : rankFormats st (withFormatId (video._formats.getD [])) = [] :=
        List.length_eq_zero.mp h1
      simp only [h1, if_true, hnil, List.map_nil]
      cases st <;> simp [addQualityOption] <;> decide
    · simp only [h1, if_false, formatEntries_append, formatEntries_map_formatOption]
      cases st <;> simp [addQualityOption] <;> decide

theorem staysBefore_trans (st : StreamType) (a b c : Format)
    (hab : staysBefore st a b = true) (hbc : staysBefore st b c = true) :
    staysBefore st a c = true := by
  simp only [staysBefore, decide_eq_true_eq] at *
  linarith

theorem staysBefore_total (st : StreamType) (a b : Format) :
    (staysBefore st a b || staysBefore st b a) = true := by
  simp only [staysBefore, Bool.or_eq_true, decide_eq_true_eq]
  rcases le_total (sortKey st a) (sortKey st b) with h | h
  · right; linarith
  · left; linarith

theorem rankFormats_perm (st : StreamType) (fs : List Format) :
    (rankFormats st fs).Perm (classifyFormats st fs) :=
  List.mergeSort_perm _ _

theorem rankFormats_sorted (st : StreamType) (fs : List Format) :
    (rankFormats st fs).Pairwise (fun x y => sortKey st y ≤ sortKey st x) := by
  have h := List.sorted_mergeSort (staysBefore_trans st) (staysBefore_total st)
    (classifyFormats st fs)
  refine h.imp ?_
  intro x y hxy
  simp only [staysBefore, decide_eq_true_eq] at hxy
  linarith

theorem rankFormats_stable (st : StreamType) (fs : List Format) (k : ℚ) :
    (rankFormats st fs).filter (fun f => decide (sortKey st f = k))
      = (classifyFormats st fs).filter (fun f => decide (sortKey st f = k)) := by
  have hsorted : ((classifyFormats st fs).filter (fun f => decide (sortKey st f = k))).Pairwise
      (fun x y => staysBefore st x y = true) := by
    rw [List.pairwise_iff_forall_sublist]
    intro x y hxy
    have hx := hxy.subset (List.mem_cons_self _ _)
    have hy := hxy.subset (List.mem_cons_of_mem _ (List.mem_cons_self _ _))
    simp only [List.mem_filter, decide_eq_true_eq] at hx hy
    simp [staysBefore, hx.2, hy.2]
  have hsub : List.Sublist ((classifyFormats st fs).filter (fun f => decide (sortKey st f = k)))
      (rankFormats st fs) :=
    List.sublist_mergeSort (staysBefore_trans st) (staysBefore_total st) hsorted
      (List.filter_sublist _)
  have hsub2 := hsub.filter (fun f => decide (sortKey st f = k))
  rw [List.filter_filter] at hsub2
  simp only [Bool.and_self] at hsub2
  have hlen : ((rankFormats st fs).filter (fun f => decide (sortKey st f = k))).length
      = ((classifyFormats st fs).filter (fun f => decide (sortKey st f = k))).length :=
    ((rankFormats_perm st fs).filter _).length_eq
  exact (hsub2.eq_of_length hlen.symm).symm

theorem classifyFormats_sublist (st : StreamType) (fs : List Format) :
    List.Sublist (classifyFormats st fs) fs := by
  unfold classifyFormats
  cases st
  · exact List.filter_sublist _
  · simp only
    split <;> exact List.filter_sublist _
  · simp only
    split <;> exact List.filter_sublist _

theorem withFormatId_sublist (c : List (Option Format)) :
    List.Sublist ((withFormatId c).map some) c := by
  induction c with
  | nil => exact List.Sublist.slnil
  | cons f c ih =>
    cases f with
    | none => simpa [withFormatId] using ih.cons none
    | some g =>
      by_cases hg : truthyStr g.format_id = true
      · simpa [withFormatId, hg] using ih.cons₂ (some g)
      · simpa [withFormatId, hg] using ih.cons (some g)

theorem codecPresent_iff (c : Option String) :
    codecPresent c = true ↔ c ≠ none ∧ c ≠ some "" ∧ c ≠ some "none" := by
  cases c with
  | none => simp [codecPresent, truthyStr]
  | some v => simp [codecPresent, truthyStr]

theorem codecAbsent_iff (c : Option String) :
    codecAbsent c = true ↔ c = none ∨ c = some "" ∨ c = some "none" := by
  cases c with
  | none => simp [codecAbsent, truthyStr]
  | some v => simp [codecAbsent, truthyStr]

theorem videoOnlyFilter_iff (d : Format) :
    videoOnlyFilter d = true ↔
      (d.vcodec ≠ none ∧ d.vcodec ≠ some "" ∧ d.vcodec ≠ some "none") ∧
        (d.acodec = none ∨ d.acodec = some "" ∨ d.acodec = some "none") := by
  simp only [videoOnlyFilter, Bool.and_eq_true, codecPresent_iff, codecAbsent_iff]

theorem anyVideoFilter_iff (d : Format) :
    anyVideoFilter d = true ↔
      d.vcodec ≠ none ∧ d.vcodec ≠ some "" ∧ d.vcodec ≠ some "none" := by
  simp only [anyVideoFilter, codecPresent_iff]

theorem mem_withFormatId (c : List (Option Format)) (d : Format) :
    d ∈ withFormatId c ↔ some d ∈ c ∧ d.format_id ≠ none ∧ d.format_id ≠ some "" := by
  unfold withFormatId
  rw [List.mem_filterMap]
  have htr : ∀ g : Format, truthyStr g.format_id = true ↔
      g.format_id ≠ none ∧ g.format_id ≠ some "" := by
    intro g
    cases g.format_id with
    | none => simp [truthyStr]
    | some v => simp [truthyStr]
  constructor
  · rintro ⟨f, hf, hfd⟩
    cases f with
    | none => simp at hfd
    | some g =>
      by_cases hg : truthyStr g.format_id = true
      · simp only [hg, if_true, Option.some.injEq] at hfd
        subst hfd
        exact ⟨hf, (htr g).mp hg⟩
      · simp [hg] at hfd
  · rintro ⟨hf, hg⟩
    exact ⟨some d, hf, by simp [(htr d).mpr hg]⟩

/-- C7: for the stream type video, the format entries are the ranked list rendered entry
by entry, and the ranked list is drawn from the descriptors of the catalog with a format
id. If one of them is video-only (video codec present, not empty and not "none"; audio
codec absent, empty or "none"), the ranked list is a rearrangement of exactly the
video-only ones, so no muxed or audio-only descriptor appears. If none is, it is a
rearrangement of exactly those with a present video codec. For the catalog of formats 137
and 140 the options are the best-available entry followed by the entry of format 137;
adding the muxed format 18 to that catalog changes nothing; and with format 18 and no
video-only descriptor the fallback lists format 18. -/
theorem video_entries_are_video_only (video : Video) :
    formatEntries (buildQualitySelect StreamType.v video)
      = (rankFormats StreamType.v (withFormatId (video._formats.getD []))).map
          (formatOption StreamType.v) ∧
    (∀ d, d ∈ withFormatId (video._formats.getD []) ↔
      some d ∈ video._formats.getD [] ∧ d.format_id ≠ none ∧ d.format_id ≠ some "") ∧
    ((∃ d ∈ withFormatId (video._formats.getD []),
        (d.vcodec ≠ none ∧ d.vcodec ≠ some "" ∧ d.vcodec ≠ some "none") ∧
          (d.acodec = none ∨ d.acodec = some "" ∨ d.acodec = some "none")) →
      (rankFormats StreamType.v (withFormatId (video._formats.getD []))).Perm
          ((withFormatId (video._formats.getD [])).filter (fun d =>
            decide ((d.vcodec ≠ none ∧ d.vcodec ≠ some "" ∧ d.vcodec ≠ some "none") ∧
              (d.acodec = none ∨ d.acodec = some "" ∨ d.acodec = some "none")))) ∧
        ∀ d, d ∈ rankFormats StreamType.v (withFormatId (video._formats.getD [])) ↔
          d ∈ withFormatId (video._formats.getD []) ∧
            (d.vcodec ≠ none ∧ d.vcodec ≠ some "" ∧ d.vcodec ≠ some "none") ∧
              (d.acodec = none ∨ d.acodec = some "" ∨ d.acodec = some "none")) ∧
    ((¬ ∃ d ∈ withFormatId (video._formats.getD []),
        (d.vcodec ≠ none ∧ d.vcodec ≠ some "" ∧ d.vcodec ≠ some "none") ∧
          (d.acodec = none ∨ d.acodec = some "" ∨ d.acodec = some "none")) →
      (rankFormats StreamType.v (withFormatId (video._formats.getD []))).Perm
          ((withFormatId (video._formats.getD [])).filter (fun d =>
            decide (d.vcodec ≠ none ∧ d.vcodec ≠ some "" ∧ d.vcodec ≠ some "none"))) ∧
        ∀ d, d ∈ rankFormats StreamType.v (withFormatId (video._formats.getD [])) ↔
          d ∈ withFormatId (video._formats.getD []) ∧
            (d.vcodec ≠ none ∧ d.vcodec ≠ some "" ∧ d.vcodec ≠ some "none")) ∧
    buildQualitySelect StreamType.v (videoWith [some format137, some format140])
      = [⟨"best", Label.text "Best available", false⟩,
          ⟨"format:137", Label.parts [LabelPart.heightP 1080, LabelPart.videoOnly], false⟩] ∧
    buildQualitySelect StreamType.v (videoWith [some format18, some format137, some format140])
      = [⟨"best", Label.text "Best available", false⟩,
          ⟨"format:137", Label.parts [LabelPart.heightP 1080, LabelPart.videoOnly], false⟩] ∧
    buildQualitySelect StreamType.v (videoWith [some format18, some format140])
      = [⟨"best", Label.text "Best available", false⟩,
          ⟨"format:18", Label.parts [LabelPart.heightP 360, LabelPart.videoOnly], false⟩] := by
  have hvo : (withFormatId (video._formats.getD [])).filter videoOnlyFilter
      = (withFormatId (video._formats.getD [])).filter (fun d =>
          decide ((d.vcodec ≠ none ∧ d.vcodec ≠ some "" ∧ d.vcodec ≠ some "none") ∧
            (d.acodec = none ∨ d.acodec = some "" ∨ d.acodec = some "none"))) := by
    apply List.filter_congr
    intro d _
    rw [Bool.eq_iff_iff, videoOnlyFilter_iff, decide_eq_true_eq]
  have hav : (withFormatId (video._formats.getD [])).filter anyVideoFilter
      = (withFormatId (video._formats.getD [])).filter (fun d =>
          decide (d.vcodec ≠ none ∧ d.vcodec ≠ some "" ∧ d.vcodec ≠ some "none")) := by
    apply List.filter_congr
    intro d _
    rw [Bool.eq_iff_iff, anyVideoFilter_iff, decide_eq_true_eq]
  have hperm := rankFormats_perm StreamType.v (withFormatId (video._formats.getD []))
  refine ⟨formatEntries_buildQualitySelect _ _, mem_withFormatId _, ?_, ?_, ?_, ?_, ?_⟩
  · rintro ⟨d, hd, hv⟩
    have hne : ((withFormatId (video._formats.getD [])).filter videoOnlyFilter).length ≠ 0 := by
      intro h0
      have hmem : d ∈ (withFormatId (video._formats.getD [])).filter videoOnlyFilter :=
        List.mem_filter.mpr ⟨hd, (videoOnlyFilter_iff d).mpr hv⟩
      rw [List.length_eq_zero.mp h0] at hmem
      exact List.not_mem_nil _ hmem
    have hcl : classifyFormats StreamType.v (withFormatId (video._formats.getD []))
        = (withFormatId (video._formats.getD [])).filter videoOnlyFilter := by
      simp only [classifyFormats, hne, ne_eq, not_false_eq_true, if_true]
    rw [hcl] at hperm
    refine ⟨hvo ▸ hperm, ?_⟩
    intro x
    rw [hperm.mem_iff, List.mem_filter, videoOnlyFilter_iff]
  · intro hnone
    have h0 : ((withFormatId (video._formats.getD [])).filter videoOnlyFilter).length = 0 := by
      rw [List.length_eq_zero, List.filter_eq_nil_iff]
      intro d hd hv
      exact hnone ⟨d, hd, (videoOnlyFilter_iff d).mp hv⟩
    have hcl : classifyFormats StreamType.v (withFormatId (video._formats.getD []))
        = (withFormatId (video._formats.getD [])).filter anyVideoFilter := by
      simp only [classifyFormats, h0, ne_eq, not_true_eq_false, if_false]
    rw [hcl] at hperm
    refine ⟨hav ▸ hperm, ?_⟩
    intro x
    rw [hperm.mem_iff, List.mem_filter, anyVideoFilter_iff]
  · simp [buildQualitySelect, videoWith, withFormatId, format137, format140, truthyStr,
      rankFormats, classifyFormats, videoOnlyFilter, anyVideoFilter, codecPresent, codecAbsent,
      addQualityOption, formatOption, labelParts]
  · simp [buildQualitySelect, videoWith, withFormatId, format137, format140, format18,
      truthyStr, rankFormats, classifyFormats, videoOnlyFilter, anyVideoFilter, codecPresent,
      codecAbsent, addQualityOption, formatOption, labelParts]
  · simp [buildQualitySelect, videoWith, withFormatId, format140, format18,
      truthyStr, rankFormats, classifyFormats, videoOnlyFilter, anyVideoFilter, codecPresent,
      codecAbsent, addQualityOption, formatOption, labelParts]

theorem video_entries_are_video_only_witness :
    (∃ d ∈ withFormatId
        ((videoWith [some format18, some format137, some format140])._formats.getD []),
      (d.vcodec ≠ none ∧ d.vcodec ≠ some "" ∧ d.vcodec ≠ some "none") ∧
        (d.acodec = none ∨ d.acodec = some "" ∨ d.acodec = some "none")) ∧
    (format137 ∈ rankFormats StreamType.v
      (withFormatId
        ((videoWith [some format18, some format137, some format140])._formats.getD []))) ∧
    (format18 ∉ rankFormats StreamType.v
      (withFormatId
        ((videoWith [some format18, some format137, some format140])._formats.getD []))) :=
  have hex : ∃ d ∈ withFormatId
      ((videoWith [some format18, some format137, some format140])._formats.getD []),
      (d.vcodec ≠ none ∧ d.vcodec ≠ some "" ∧ d.vcodec ≠ some "none") ∧
        (d.acodec = none ∨ d.acodec = some "" ∨ d.acodec = some "none") :=
    ⟨format137, by decide, by decide⟩
  have h := ((video_entries_are_video_only
    (videoWith [some format18, some format137, some format140])).2.2.1 hex).2
  ⟨hex, (h format137).mpr ⟨by decide, by decide⟩,
    fun h18 => absurd ((h format18).mp h18).2.2 (by decide)⟩

/-- C8: for every catalog and stream type the format entries are the ranked list rendered
entry by entry; the ranked list is ordered by non-increasing sort key (bitrate for audio,
height otherwise, a missing key counting as 0); descriptors with equal keys keep the
relative order they have in the catalog; and the options depend only on the catalog and
the stream type. -/
theorem entries_ranked_stably (st : StreamType) (video : Video) :
    formatEntries (buildQualitySelect st video)
      = (rankFormats st (withFormatId (video._formats.getD []))).map (formatOption st) ∧
    (rankFormats st (withFormatId (video._formats.getD []))).Pairwise
      (fun x y => sortKey st y ≤ sortKey st x) ∧
    (∀ k : ℚ,
      (rankFormats st (withFormatId (video._formats.getD []))).filter
          (fun f => decide (sortKey st f = k))
        = (classifyFormats st (withFormatId (video._formats.getD []))).filter
          (fun f => decide (sortKey st f = k))) ∧
    List.Sublist ((classifyFormats st (withFormatId (video._formats.getD []))).map some)
      (video._formats.getD []) ∧
    (∀ k : ℚ,
      List.Sublist
        (((rankFormats st (withFormatId (video._formats.getD []))).filter
          (fun f => decide (sortKey st f = k))).map some)
        (video._formats.getD [])) ∧
    (∀ f : Format, sortKey StreamType.a f = f.tbr.getD 0 ∧
      sortKey StreamType.v f = f.height.getD 0 ∧ sortKey StreamType.av f = f.height.getD 0) ∧
    (∀ other : Video, other._formats = video._formats →
      buildQualitySelect st other = buildQualitySelect st video) := by
  have hcat : List.Sublist ((classifyFormats st (withFormatId (video._formats.getD []))).map some)
      (video._formats.getD []) :=
    ((classifyFormats_sublist st _).map some).trans (withFormatId_sublist _)
  refine ⟨formatEntries_buildQualitySelect st video, rankFormats_sorted st _,
    rankFormats_stable st _, hcat, ?_, fun f => ⟨rfl, rfl, rfl⟩, ?_⟩
  · intro k
    rw [rankFormats_stable st _ k]
    exact (((List.filter_sublist _).map some).trans hcat)
  · intro other ho
    simp only [buildQualitySelect, ho]

/-- C9: a catalog in which no descriptor has a format id (the empty catalog included)
yields exactly the generic presets: for audio the entry audio; for video the entries best,
1080p, 720p, 480p; for video with audio those four followed by audio. None of them names
a concrete format. -/
theorem no_format_id_gives_presets (video : Video)
    (h : ∀ f ∈ video._formats.getD [], ∀ g, f = some g → truthyStr g.format_id = false) :
    buildQualitySelect StreamType.a video
      = [⟨"audio", Label.text "Best available (audio)", false⟩] ∧
    buildQualitySelect StreamType.v video
      = [⟨"best", Label.text "Best available", false⟩,
          ⟨"1080p", Label.text "Up to 1080p", false⟩,
          ⟨"720p", Label.text "Up to 720p", false⟩,
          ⟨"480p", Label.text "Up to 480p", false⟩] ∧
    buildQualitySelect StreamType.av video
      = [⟨"best", Label.text "Best available", false⟩,
          ⟨"1080p", Label.text "Up to 1080p", false⟩,
          ⟨"720p", Label.text "Up to 720p", false⟩,
          ⟨"480p", Label.text "Up to 480p", false⟩,
          ⟨"audio", Label.text "Audio only", false⟩] ∧
    (∀ st, formatEntries (buildQualitySelect st video) = []) := by
  have hnil : withFormatId (video._formats.getD []) = [] := by
    unfold withFormatId
    rw [List.filterMap_eq_nil_iff]
    intro f hf
    cases f with
    | none => rfl
    | some g => simp [h (some g) hf g rfl]
  refine ⟨?_, ?_, ?_, ?_⟩
  · simp [buildQualitySelect, hnil, addQualityOption]
  · simp [buildQualitySelect, hnil, addQualityOption]
  · simp [buildQualitySelect, hnil, addQualityOption]
  · intro st
    rw [formatEntries_buildQualitySelect, hnil]
    simp [rankFormats, classifyFormats]
    cases st <;> simp

theorem no_format_id_gives_presets_witness :
    buildQualitySelect StreamType.av
        (videoWith [none, some { format137 with format_id := none }])
      = [⟨"best", Label.text "Best available", false⟩,
          ⟨"1080p", Label.text "Up to 1080p", false⟩,
          ⟨"720p", Label.text "Up to 720p", false⟩,
          ⟨"480p", Label.text "Up to 480p", false⟩,
          ⟨"audio", Label.text "Audio only", false⟩] :=
  (no_format_id_gives_presets (videoWith [none, some { format137 with format_id := none }])
    (by
      intro f hf g hg
      simp only [videoWith, Option.getD_some, List.mem_cons, List.mem_singleton,
        List.not_mem_nil, or_false] at hf
      rcases hf with hf | hf
      · rw [hf] at hg
        cases hg
      · rw [hf] at hg
        cases hg
        rfl)).2.2.1

/-- The claim of C10 fails on letter case: the descriptor with format id 251, no video
codec and audio codec `"NONE"` has a non-empty audio codec that is not the string
`"none"`, yet the audio branch lowers the codec before comparing and drops it. -/
theorem upper_case_none_is_excluded :
    truthyStr formatUpperNone.format_id = true ∧
    truthyStr formatUpperNone.acodec = true ∧
    formatUpperNone.acodec ≠ some "none" ∧
    truthyStr formatUpperNone.vcodec = false ∧
    formatUpperNone ∉ rankFormats StreamType.a (withFormatId [some formatUpperNone]) ∧
    formatEntries (buildQualitySelect StreamType.a (videoWith [some formatUpperNone])) = [] := by
  have hrank : rankFormats StreamType.a (withFormatId [some formatUpperNone]) = [] := by
    have hf : audioFilter formatUpperNone = false := by decide
    have hid : truthyStr formatUpperNone.format_id = true := by decide
    simp [rankFormats, classifyFormats, withFormatId, hf, hid]
  refine ⟨by decide, by decide, by decide, by decide, ?_, ?_⟩
  · rw [hrank]
    exact List.not_mem_nil _
  · rw [formatEntries_buildQualitySelect]
    simp only [videoWith, Option.getD_some, hrank, List.map_nil]

/-- C10 (amended): for the stream type audio, a descriptor is in the ranked list, whose
rendering is the format entries, exactly when it is a descriptor of the catalog with a
format id, its audio codec is non-empty and not `"none"` in any letter case, and either
its video codec is absent, empty or `"none"` in any letter case, or its extension in
lower case is one of m4a, mp3, webm, opus, ogg, flac, wav. -/
theorem audio_entries_characterised (video : Video) (d : Format) :
    formatEntries (buildQualitySelect StreamType.a video)
      = (rankFormats StreamType.a (withFormatId (video._formats.getD []))).map
          (formatOption StreamType.a) ∧
    (d ∈ rankFormats StreamType.a (withFormatId (video._formats.getD [])) ↔
      (some d ∈ video._formats.getD [] ∧ truthyStr d.format_id = true) ∧
      (truthyStr d.acodec = true ∧ toLowerCase (d.acodec.getD "") ≠ "none") ∧
      ((toLowerCase (d.vcodec.getD "") = "" ∨ toLowerCase (d.vcodec.getD "") = "none") ∨
        toLowerCase (d.ext.getD "") ∈ ["m4a", "mp3", "webm", "opus", "ogg", "flac", "wav"])) := by
  refine ⟨formatEntries_buildQualitySelect _ _, ?_⟩
  have hmem : d ∈ withFormatId (video._formats.getD []) ↔
      (some d ∈ video._formats.getD [] ∧ truthyStr d.format_id = true) := by
    unfold withFormatId
    rw [List.mem_filterMap]
    constructor
    · rintro ⟨f, hf, hfd⟩
      cases f with
      | none => simp at hfd
      | some g =>
        by_cases hg : truthyStr g.format_id = true
        · simp only [hg, if_true, Option.some.injEq] at hfd
          subst hfd
          exact ⟨hf, hg⟩
        · simp [hg] at hfd
    · rintro ⟨hf, hg⟩
      exact ⟨some d, hf, by simp [hg]⟩
  rw [(rankFormats_perm StreamType.a _).mem_iff]
  simp only [classifyFormats, List.mem_filter, hmem, audioFilter, audioExts, Bool.and_eq_true,
    Bool.or_eq_true, decide_eq_true_eq, and_assoc]

/-- C11: when the catalog has a descriptor with a format id but the classification for
the stream type keeps none, the options are the best-available entry followed by one
disabled entry with an empty value and the text "No formats of this type; try a different
type". That entry is the only disabled one and there is no format entry. -/
theorem empty_classification_gives_disabled_entry (st : StreamType) (video : Video)
    (hsome : withFormatId (video._formats.getD []) ≠ [])
    (hnone : classifyFormats st (withFormatId (video._formats.getD [])) = []) :
    buildQualitySelect st video
      = [if st = StreamType.a then ⟨"audio", Label.text "Best available (audio)", false⟩
          else ⟨"best", Label.text "Best available", false⟩,
         ⟨"", Label.text "No formats of this type; try a different type", true⟩] ∧
    (buildQualitySelect st video).filter (fun o => o.disabled)
      = [⟨"", Label.text "No formats of this type; try a different type", true⟩] ∧
    formatEntries (buildQualitySelect st video) = [] := by
  have hlen : (withFormatId (video._formats.getD [])).length ≠ 0 := by
    intro h0
    exact hsome (List.length_eq_zero.mp h0)
  have hrank : rankFormats st (withFormatId (video._formats.getD [])) = [] := by
    simp [rankFormats, hnone]
  have hbuild : buildQualitySelect st video
      = [if st = StreamType.a then ⟨"audio", Label.text "Best available (audio)", false⟩
          else ⟨"best", Label.text "Best available", false⟩,
         ⟨"", Label.text "No formats of this type; try a different type", true⟩] := by
    unfold buildQualitySelect
    simp only [hlen, if_false, hrank, List.length_nil, if_true]
    cases st <;> simp [addQualityOption]
  refine ⟨hbuild, ?_, ?_⟩
  · rw [hbuild]
    cases st <;> simp
  · rw [formatEntries_buildQualitySelect, hrank]
    rfl

theorem empty_classification_gives_disabled_entry_witness :
    withFormatId ((videoWith [some format140])._formats.getD []) ≠ [] ∧
    classifyFormats StreamType.v (withFormatId ((videoWith [some format140])._formats.getD []))
      = [] ∧
    buildQualitySelect StreamType.v (videoWith [some format140])
      = [⟨"best", Label.text "Best available", false⟩,
         ⟨"", Label.text "No formats of this type; try a different type", true⟩] :=
  have h1 : withFormatId ((videoWith [some format140])._formats.getD []) ≠ [] := by decide
  have h2 : classifyFormats StreamType.v
      (withFormatId ((videoWith [some format140])._formats.getD [])) = [] := by decide
  ⟨h1, h2,
    (empty_classification_gives_disabled_entry StreamType.v (videoWith [some format140])
      h1 h2).1⟩

theorem mathRound_le (q : ℚ) : (mathRound q : ℚ) ≤ q + 1 / 2 :=
  Int.floor_le _

theorem lt_mathRound_add_one (q : ℚ) : q + 1 / 2 < (mathRound q : ℚ) + 1 :=
  Int.lt_floor_add_one _

theorem mathRound_nonpos_of_neg {q : ℚ} (h : q < 0) : mathRound q ≤ 0 := by
  have h1 := mathRound_le q
  have h2 : (mathRound q : ℚ) < 1 := by linarith
  have h3 : mathRound q < 1 := by exact_mod_cast h2
  omega

theorem mathRound_nonneg_of_nonneg {q : ℚ} (h : 0 ≤ q) : 0 ≤ mathRound q := by
  have h1 := lt_mathRound_add_one q
  have h2 : (-1 : ℚ) < (mathRound q : ℚ) := by linarith
  have h3 : (-1 : ℤ) < mathRound q := by exact_mod_cast h2
  omega

theorem mathRound_le_hundred {q : ℚ} (h : q ≤ 100) : mathRound q ≤ 100 := by
  have h1 := mathRound_le q
  have h2 : (mathRound q : ℚ) < 101 := by linarith
  have h3 : mathRound q < 101 := by exact_mod_cast h2
  omega

theorem hundred_le_mathRound {q : ℚ} (h : 100 < q) : 100 ≤ mathRound q := by
  have h1 := lt_mathRound_add_one q
  have h2 : (99 : ℚ) < (mathRound q : ℚ) := by linarith
  have h3 : (99 : ℤ) < mathRound q := by exact_mod_cast h2
  omega

/-- C12: the percent shown by `setButtonProgress` is `safePercent` of its argument, an
integer between 0 and 100. It is 0 when the argument is not a finite number, 0 when it is
below 0, 100 when it is above 100, and otherwise the argument rounded to the nearest
integer (within one half of it, a tie going upward). -/
theorem displayed_percent_is_clamped (bs : ButtonState) (which : Which) (p : JsValue) :
    ((setButtonProgress bs which p).get which).text = Caption.downloading (safePercent p) ∧
    0 ≤ safePercent p ∧ safePercent p ≤ 100 ∧
    ((∀ q : ℚ, p ≠ JsValue.number (JsNumber.finite q)) → safePercent p = 0) ∧
    (∀ q : ℚ, q < 0 → safePercent (JsValue.number (JsNumber.finite q)) = 0) ∧
    (∀ q : ℚ, 100 < q → safePercent (JsValue.number (JsNumber.finite q)) = 100) ∧
    (∀ q : ℚ, 0 ≤ q → q ≤ 100 →
      safePercent (JsValue.number (JsNumber.finite q)) = ⌊q + 1 / 2⌋ ∧
      |((safePercent (JsValue.number (JsNumber.finite q)) : ℤ) : ℚ) - q| ≤ 1 / 2) := by
  have hrange : ∀ v : JsValue, 0 ≤ safePercent v ∧ safePercent v ≤ 100 := by
    intro v
    cases v with
    | number n =>
      cases n with
      | finite q =>
        simp only [safePercent]
        exact ⟨le_max_left _ _, max_le (by norm_num) (min_le_left _ _)⟩
      | nan => simp [safePercent]
      | posInf => simp [safePercent]
      | negInf => simp [safePercent]
    | undefined => simp [safePercent]
    | null => simp [safePercent]
    | bool b => simp [safePercent]
    | string s => simp [safePercent]
    | object => simp [safePercent]
  refine ⟨by simp [setButtonProgress, get_set_self], (hrange p).1, (hrange p).2, ?_, ?_, ?_, ?_⟩
  · intro hp
    cases p with
    | number n =>
      cases n with
      | finite q => exact absurd rfl (hp q)
      | nan => rfl
      | posInf => rfl
      | negInf => rfl
    | undefined => rfl
    | null => rfl
    | bool b => rfl
    | string s => rfl
    | object => rfl
  · intro q hq
    have h := mathRound_nonpos_of_neg hq
    simp only [safePercent]
    omega
  · intro q hq
    have h := hundred_le_mathRound hq
    simp only [safePercent]
    omega
  · intro q h0 h100
    have ha := mathRound_nonneg_of_nonneg h0
    have hb := mathRound_le_hundred h100
    have heq : safePercent (JsValue.number (JsNumber.finite q)) = mathRound q := by
      simp only [safePercent]
      omega
    refine ⟨heq, ?_⟩
    rw [heq, abs_le]
    have h1 := mathRound_le q
    have h2 := lt_mathRound_add_one q
    constructor <;> linarith

theorem slice_format (id : String) : slice ("format:" ++ id) 7 = id := by
  simp [slice, String.toList]

theorem truthyStr_format (id : String) : truthyStr (some ("format:" ++ id)) = true := by
  have hne : "format:" ++ id ≠ "" := by
    intro h
    have := congrArg String.length h
    simp [String.length_append] at this
    exact absurd this.1 (by decide)
  simp [truthyStr, hne]

theorem reconcileQuality_format (st : StreamType) (id : String) :
    reconcileQuality st (some ("format:" ++ id))
      = (if st = StreamType.a then "audio" else "best", some id) := by
  simp [reconcileQuality, orStr, truthyStr_format, startsWith_format, slice_format]

theorem reconcileQuality_preset (st : StreamType) (preset : String)
    (hp : preset ∈ ["best", "1080p", "720p", "480p", "audio"]) :
    reconcileQuality st (some preset) = (preset, none) := by
  simp only [List.mem_cons, List.mem_singleton, List.not_mem_nil, or_false] at hp
  rcases hp with h | h | h | h | h <;> subst h <;> cases st <;> decide

/-- C13: the value emitted for a descriptor with format id `f`, read back by
`startDownload`, gives a payload whose format id is exactly `f` and whose quality is
"audio" for the stream type audio and "best" otherwise; each preset value best, 1080p,
720p, 480p, audio gives a payload with format id null and the preset as quality. -/
theorem format_value_read_back (d : Format) (s : State) (video : Video) (which : Which)
    (start end_ : JsNumber) :
    (formatOption s.controls.streamType d).value = "format:" ++ d.format_id.getD "" ∧
    (buildPayload
        { s with
          controls := { s.controls with
            qualitySelect := some (formatOption s.controls.streamType d).value } }
        video which start end_).formatId = some (d.format_id.getD "") ∧
    (buildPayload
        { s with
          controls := { s.controls with
            qualitySelect := some (formatOption s.controls.streamType d).value } }
        video which start end_).quality
      = (if s.controls.streamType = StreamType.a then "audio" else "best") ∧
    (∀ preset ∈ ["best", "1080p", "720p", "480p", "audio"],
      (buildPayload { s with controls := { s.controls with qualitySelect := some preset } }
          video which start end_).formatId = none ∧
      (buildPayload { s with controls := { s.controls with qualitySelect := some preset } }
          video which start end_).quality = preset) := by
  refine ⟨rfl, ?_, ?_, ?_⟩
  · simp [buildPayload, formatOption, reconcileQuality_format]
  · simp [buildPayload, formatOption, reconcileQuality_format]
  · intro preset hp
    simp [buildPayload, reconcileQuality_preset _ preset hp]

theorem sanitize_toList (name : String) :
    (sanitizeFilename name).toList
      = name.toList.map (fun c => if c ∈ forbiddenChars then Char.ofNat 95 else c) := rfl

/-- C14: `sanitizeFilename(name)` has the length of `name`, contains none of the ten
characters slash, backslash, question mark, percent, asterisk, colon, bar, double quote,
less-than and greater-than, has an underscore wherever `name` has one of them, agrees
with `name` everywhere else, and sanitising twice is the same as sanitising once. -/
theorem sanitizeFilename_pointwise (name : String) :
    (sanitizeFilename name).length = name.length ∧
    (∀ c ∈ (sanitizeFilename name).toList, c ∉ forbiddenChars) ∧
    (∀ (i : Nat) (c : Char), name.toList[i]? = some c →
      (c ∈ forbiddenChars → (sanitizeFilename name).toList[i]? = some (Char.ofNat 95)) ∧
      (c ∉ forbiddenChars → (sanitizeFilename name).toList[i]? = some c)) ∧
    sanitizeFilename (sanitizeFilename name) = sanitizeFilename name ∧
    forbiddenChars = "/\\?%*:|\"<>".toList ∧ Char.ofNat 95 = "_".get 0 := by
  have hclean : ∀ c ∈ (sanitizeFilename name).toList, c ∉ forbiddenChars := by
    intro c hc
    rw [sanitize_toList, List.mem_map] at hc
    obtain ⟨c0, -, rfl⟩ := hc
    by_cases h0 : c0 ∈ forbiddenChars
    · simp only [h0, if_true]
      decide
    · simp [h0]
  refine ⟨?_, hclean, ?_, ?_, by decide, by decide⟩
  · show (name.toList.map _).length = name.toList.length
    exact List.length_map _ _
  · intro i c hi
    rw [sanitize_toList, List.getElem?_map, hi]
    constructor
    · intro hc
      simp [hc]
    · intro hc
      simp [hc]
  · apply String.ext
    show (sanitizeFilename (sanitizeFilename name)).toList = (sanitizeFilename name).toList
    rw [sanitize_toList (sanitizeFilename name)]
    conv_rhs => rw [← List.map_id (sanitizeFilename name).toList]
    apply List.map_congr_left
    intro c hc
    simp [hclean c hc]

theorem busyHasJob_iff (bs : ButtonState) :
    busyHasJob bs = true ↔
      ∀ w, (bs.get w).busy = true → (bs.get w).jobId.isSome = true := by
  constructor
  · intro h w hb
    simp only [busyHasJob, Bool.and_eq_true, Bool.or_eq_true, Bool.not_eq_true'] at h
    cases w with
    | full => rcases h.1 with h1 | h1
              · rw [ButtonState.get, h1] at hb; cases hb
              · exact h1
    | trimmed => rcases h.2 with h1 | h1
                 · rw [ButtonState.get, h1] at hb; cases hb
                 · exact h1
  · intro h
    have hf := h Which.full
    have ht := h Which.trimmed
    simp only [ButtonState.get] at hf ht
    simp only [busyHasJob, Bool.and_eq_true, Bool.or_eq_true, Bool.not_eq_true']
    constructor
    · cases hb : bs.full.busy with
      | false => exact Or.inl rfl
      | true => exact Or.inr (hf hb)
    · cases hb : bs.trimmed.busy with
      | false => exact Or.inl rfl
      | true => exact Or.inr (ht hb)

theorem busyHasJob_set (bs : ButtonState) (w : Which) (b : Button)
    (h : busyHasJob bs = true) (hb : b.busy = true → b.jobId.isSome = true) :
    busyHasJob (bs.set w b) = true := by
  rw [busyHasJob_iff] at h ⊢
  intro w' hbusy
  by_cases hw : w' = w
  · subst hw
    rw [get_set_self] at hbusy ⊢
    exact hb hbusy
  · rw [get_set_of_ne bs b hw] at hbusy ⊢
    exact h w' hbusy

theorem busyHasJob_resetButton (bs : ButtonState) (w : Which) (h : busyHasJob bs = true) :
    busyHasJob (resetButton bs w) = true :=
  busyHasJob_set bs w _ h (fun hb => by cases hb)

theorem busyHasJob_setButtonDone (bs : ButtonState) (w : Which) (f : Option String)
    (h : busyHasJob bs = true) : busyHasJob (setButtonDone bs w f) = true :=
  busyHasJob_set bs w _ h (fun hb => by cases hb)

theorem busyHasJob_setButtonError (bs : ButtonState) (w : Which) (e : String)
    (h : busyHasJob bs = true) : busyHasJob (setButtonError bs w e) = true :=
  busyHasJob_set bs w _ h (fun hb => by cases hb)

theorem busyHasJob_setButtonProgress (bs : ButtonState) (w : Which) (p : JsValue)
    (h : busyHasJob bs = true) (hj : (bs.get w).jobId.isSome = true) :
    busyHasJob (setButtonProgress bs w p) = true :=
  busyHasJob_set bs w _ h (fun _ => hj)

theorem busyHasJob_routeEvent (m : RuntimeMsg) (bs : ButtonState) (w : Which)
    (hm : truthyStr m.jobId = true) (h : busyHasJob bs = true) :
    busyHasJob (routeEvent m bs w) = true := by
  obtain ⟨j, hj, -⟩ := Background.truthyStr_some hm
  unfold routeEvent
  split
  · exact h
  · next heq =>
    have hsome : (bs.get w).jobId.isSome = true := by
      have : (bs.get w).jobId = m.jobId := by simpa using heq
      rw [this, hj]
      rfl
    repeat' split
    all_goals first
      | exact busyHasJob_setButtonProgress bs w _ h hsome
      | exact busyHasJob_setButtonDone bs w _ h
      | exact busyHasJob_setButtonError bs w _ h
      | exact h

theorem busyHasJob_onMessage (bs : ButtonState) (m : Option RuntimeMsg)
    (h : busyHasJob bs = true) : busyHasJob (onMessage bs m) = true := by
  cases m with
  | none => exact h
  | some r =>
    by_cases hn : r.fromNative = true
    · by_cases hj : truthyStr r.jobId = true
      · rw [onMessage_eq_fold bs r hn hj]
        exact busyHasJob_routeEvent r _ _ hj (busyHasJob_routeEvent r _ _ hj h)
      · simpa [onMessage, hj] using h
    · simpa [onMessage, hn] using h

theorem busyHasJob_onStartResponse (bs : ButtonState) (w : Which) (lastError : Option String)
    (response : Option Response)
    (hr : (Action.acknowledge w lastError response).fromBackground = true)
    (h : busyHasJob bs = true) :
    busyHasJob (onStartResponse bs w lastError response) = true := by
  unfold onStartResponse
  split
  · exact busyHasJob_setButtonError bs w _ h
  · exact busyHasJob_setButtonError bs w _ h
  · next r =>
    split
    · exact busyHasJob_setButtonError bs w _ h
    · next hok =>
      have hjob : r.jobId.isSome = true := by
        simp only [Action.fromBackground, Bool.or_eq_true, Bool.not_eq_true'] at hr
        rcases hr with h1 | h1
        · simp [h1] at hok
        · exact h1
      apply busyHasJob_setButtonProgress
      · exact busyHasJob_set bs w _ h (fun _ => hjob)
      · rw [get_set_self]
        exact hjob

theorem startDownload_fst (s : State) (w : Which) :
    (startDownload s w).1 = s.buttonState ∨
      (startDownload s w).1
        = setButtonError s.buttonState w "End must be greater than start." := by
  unfold startDownload
  cases s.selectedVideo with
  | none => exact Or.inl rfl
  | some v =>
    dsimp only
    split_ifs <;> simp

theorem busyHasJob_startDownload (s : State) (w : Which) (h : busyHasJob s.buttonState = true) :
    busyHasJob (startDownload s w).1 = true := by
  rcases startDownload_fst s w with h1 | h1
  · rw [h1]
    exact h
  · rw [h1]
    exact busyHasJob_setButtonError _ w _ h

theorem busyHasJob_apply (bs : ButtonState) (a : Action) (ha : a.fromBackground = true)
    (h : busyHasJob bs = true) : busyHasJob (a.apply bs) = true := by
  cases a with
  | start w v t c => exact busyHasJob_startDownload ⟨bs, v, t, c⟩ w h
  | acknowledge w e r => exact busyHasJob_onStartResponse bs w e r ha h
  | event m => exact busyHasJob_onMessage bs m h
  | reset w => exact busyHasJob_resetButton bs w h

theorem busyHasJob_foldl (actions : List Action) :
    ∀ bs : ButtonState, (∀ a ∈ actions, a.fromBackground = true) → busyHasJob bs = true →
      busyHasJob (actions.foldl Action.apply bs) = true := by
  induction actions with
  | nil => intro bs _ h; exact h
  | cons a rest ih =>
    intro bs ha h
    exact ih (a.apply bs) (fun x hx => ha x (List.mem_cons_of_mem _ hx))
      (busyHasJob_apply bs a (ha a (List.mem_cons_self _ _)) h)

/-- C15: in every state reached from start-up by calls of `startDownload`, start
acknowledgements as the background script sends them (an ok reply carries a job id),
native events and resets, a busy slot has a non-null job id. The invariant is kept by
`resetButton`, `setButtonDone`, `setButtonError`, by `setButtonProgress` on a slot that
has a job id (its two call sites), by the acknowledgement callback and by the listener. -/
theorem busy_slot_has_job (actions : List Action)
    (h : ∀ a ∈ actions, a.fromBackground = true) :
    (∀ which, ((runActions actions).get which).busy = true →
      ((runActions actions).get which).jobId ≠ none) ∧
    busyHasJob initialButtonState = true ∧
    (∀ bs which, busyHasJob bs = true → busyHasJob (resetButton bs which) = true) ∧
    (∀ bs which f, busyHasJob bs = true → busyHasJob (setButtonDone bs which f) = true) ∧
    (∀ bs which e, busyHasJob bs = true → busyHasJob (setButtonError bs which e) = true) ∧
    (∀ bs which p, busyHasJob bs = true → (bs.get which).jobId ≠ none →
      busyHasJob (setButtonProgress bs which p) = true) ∧
    (∀ bs which r, busyHasJob bs = true → (r.ok = true → r.jobId ≠ none) →
      busyHasJob (onStartResponse bs which none (some r)) = true) ∧
    (∀ bs msg, busyHasJob bs = true → busyHasJob (onMessage bs msg) = true) := by
  have hinit : busyHasJob initialButtonState = true := by decide
  have hrun : busyHasJob (runActions actions) = true :=
    busyHasJob_foldl actions initialButtonState h hinit
  refine ⟨?_, hinit, busyHasJob_resetButton, busyHasJob_setButtonDone,
    busyHasJob_setButtonError, ?_, ?_, busyHasJob_onMessage⟩
  · intro which hb
    have := (busyHasJob_iff _).mp hrun which hb
    intro hnone
    rw [hnone] at this
    cases this
  · intro bs which p hbs hj
    exact busyHasJob_setButtonProgress bs which p hbs (Option.isSome_iff_ne_none.mpr hj)
  · intro bs which r hbs hr
    apply busyHasJob_onStartResponse bs which none (some r) _ hbs
    simp only [Action.fromBackground, Bool.or_eq_true, Bool.not_eq_true']
    cases hok : r.ok with
    | false => exact Or.inl rfl
    | true => exact Or.inr (Option.isSome_iff_ne_none.mpr (hr hok))

theorem busy_slot_has_job_witness :
    (∀ a ∈ [Action.start Which.full (some sampleVideo) ⟨none, none⟩
          (sampleState initialButtonState 0 60).controls,
        Action.acknowledge Which.full none (some ⟨true, some "j1", none⟩),
        Action.event (some ⟨true, some "j1", some "progress",
          JsValue.number (JsNumber.finite 40), none, none⟩)],
      a.fromBackground = true) ∧
    (∀ which,
      ((runActions [Action.start Which.full (some sampleVideo) ⟨none, none⟩
          (sampleState initialButtonState 0 60).controls,
        Action.acknowledge Which.full none (some ⟨true, some "j1", none⟩),
        Action.event (some ⟨true, some "j1", some "progress",
          JsValue.number (JsNumber.finite 40), none, none⟩)]).get which).busy = true →
      ((runActions [Action.start Which.full (some sampleVideo) ⟨none, none⟩
          (sampleState initialButtonState 0 60).controls,
        Action.acknowledge Which.full none (some ⟨true, some "j1", none⟩),
        Action.event (some ⟨true, some "j1", some "progress",
          JsValue.number (JsNumber.finite 40), none, none⟩)]).get which).jobId ≠ none) :=
  have hall : ∀ a ∈ [Action.start Which.full (some sampleVideo) ⟨none, none⟩
        (sampleState initialButtonState 0 60).controls,
      Action.acknowledge Which.full none (some ⟨true, some "j1", none⟩),
      Action.event (some ⟨true, some "j1", some "progress",
        JsValue.number (JsNumber.finite 40), none, none⟩)],
      a.fromBackground = true := by
    intro a ha
    simp only [List.mem_cons, List.mem_singleton, List.not_mem_nil, or_false] at ha
    rcases ha with h | h | h <;> subst h <;> rfl
  ⟨hall, (busy_slot_has_job _ hall).1⟩

theorem labelParts_v_roles (d : Format) :
    LabelPart.videoOnly ∈ labelParts StreamType.v d ∧
    LabelPart.videoAudio ∉ labelParts StreamType.v d ∧
    LabelPart.muxedBestAudio ∉ labelParts StreamType.v d := by
  simp only [labelParts]
  split_ifs <;> simp

theorem labelParts_av_roles (d : Format) :
    LabelPart.videoOnly ∉ labelParts StreamType.av d ∧
    (LabelPart.videoAudio ∈ labelParts StreamType.av d ↔
      (codecPresent d.vcodec && codecPresent d.acodec) = true) ∧
    (LabelPart.muxedBestAudio ∈ labelParts StreamType.av d ↔
      (codecPresent d.vcodec && codecPresent d.acodec) = false) := by
  simp only [labelParts]
  split_ifs <;> simp_all

theorem labelParts_length_ne_zero (st : StreamType) (d : Format) (h : st ≠ StreamType.a) :
    (labelParts st d).length ≠ 0 := by
  cases st with
  | a => exact absurd rfl h
  | v =>
    intro h0
    have := (labelParts_v_roles d).1
    rw [List.length_eq_zero.mp h0] at this
    exact List.not_mem_nil _ this
  | av =>
    intro h0
    have h1 := (labelParts_av_roles d).2.1
    have h2 := (labelParts_av_roles d).2.2
    rw [List.length_eq_zero.mp h0] at h1 h2
    cases hc : (codecPresent d.vcodec && codecPresent d.acodec) with
    | true => exact List.not_mem_nil _ (h1.mpr hc)
    | false => exact List.not_mem_nil _ (h2.mpr hc)

theorem mem_classify_video (st : StreamType) (h : st ≠ StreamType.a) (fs : List Format)
    (d : Format) (hd : d ∈ classifyFormats st fs) : codecPresent d.vcodec = true := by
  cases st with
  | a => exact absurd rfl h
  | v =>
    simp only [classifyFormats] at hd
    split at hd
    · have := (List.mem_filter.mp hd).2
      simp only [videoOnlyFilter, Bool.and_eq_true] at this
      exact this.1
    · exact (List.mem_filter.mp hd).2
  | av =>
    simp only [classifyFormats] at hd
    split at hd
    · have := (List.mem_filter.mp hd).2
      simp only [avFilter, Bool.and_eq_true] at this
      exact this.1
    · exact (List.mem_filter.mp hd).2

/-- The claim of C16 fails in the fallback of the video branch: for the catalog holding
only the muxed format 18 and the stream type video, the entry of format 18 is labelled
"video only" although its audio codec is present. -/
theorem muxed_format_labelled_video_only :
    buildQualitySelect StreamType.v (videoWith [some format18])
      = [⟨"best", Label.text "Best available", false⟩,
          ⟨"format:18", Label.parts [LabelPart.heightP 360, LabelPart.videoOnly], false⟩] ∧
    codecPresent format18.vcodec = true ∧
    codecPresent format18.acodec = true ∧
    codecAbsent format18.acodec = false := by
  refine ⟨?_, by decide, by decide, by decide⟩
  simp [buildQualitySelect, videoWith, withFormatId, format18, truthyStr,
    rankFormats, classifyFormats, videoOnlyFilter, anyVideoFilter, codecPresent, codecAbsent,
    addQualityOption, formatOption, labelParts]

/-- C16 (amended): the label of every rendered descriptor is its list of label pieces.
For the stream type video every rendered descriptor carries the role "video only" and no
other role, and has a present video codec; its audio codec is absent or "none" whenever
some descriptor of the catalog is video-only. For video with audio a rendered descriptor
never carries "video only", has a present video codec, carries "video + audio" exactly
when its audio codec is present too, and "muxed with best audio" otherwise. A codec is
present when the field is there, not empty and not "none". -/
theorem role_suffix_of_rendered (video : Video) (d : Format) :
    (d ∈ rankFormats StreamType.v (withFormatId (video._formats.getD [])) →
      (formatOption StreamType.v d).label = Label.parts (labelParts StreamType.v d) ∧
      LabelPart.videoOnly ∈ labelParts StreamType.v d ∧
      LabelPart.videoAudio ∉ labelParts StreamType.v d ∧
      LabelPart.muxedBestAudio ∉ labelParts StreamType.v d ∧
      codecPresent d.vcodec = true ∧
      ((∃ e ∈ withFormatId (video._formats.getD []), videoOnlyFilter e = true) →
        codecAbsent d.acodec = true) ∧
      (d.vcodec ≠ none ∧ d.vcodec ≠ some "" ∧ d.vcodec ≠ some "none") ∧
      ((∃ e ∈ withFormatId (video._formats.getD []),
          (e.vcodec ≠ none ∧ e.vcodec ≠ some "" ∧ e.vcodec ≠ some "none") ∧
            (e.acodec = none ∨ e.acodec = some "" ∨ e.acodec = some "none")) →
        (d.acodec = none ∨ d.acodec = some "" ∨ d.acodec = some "none"))) ∧
    (d ∈ rankFormats StreamType.av (withFormatId (video._formats.getD [])) →
      (formatOption StreamType.av d).label = Label.parts (labelParts StreamType.av d) ∧
      LabelPart.videoOnly ∉ labelParts StreamType.av d ∧
      codecPresent d.vcodec = true ∧
      (LabelPart.videoAudio ∈ labelParts StreamType.av d ↔ codecPresent d.acodec = true) ∧
      (LabelPart.muxedBestAudio ∈ labelParts StreamType.av d ↔
        codecPresent d.acodec = false) ∧
      (d.vcodec ≠ none ∧ d.vcodec ≠ some "" ∧ d.vcodec ≠ some "none") ∧
      (LabelPart.videoAudio ∈ labelParts StreamType.av d ↔
        (d.acodec ≠ none ∧ d.acodec ≠ some "" ∧ d.acodec ≠ some "none"))) := by
  have hlabel : ∀ st : StreamType, st ≠ StreamType.a →
      (formatOption st d).label = Label.parts (labelParts st d) := by
    intro st hst
    simp [formatOption, labelParts_length_ne_zero st d hst]
  constructor
  · intro hd
    have hcl := (rankFormats_perm StreamType.v _).subset hd
    have hv := mem_classify_video StreamType.v (by decide) _ d hcl
    have himp : (∃ e ∈ withFormatId (video._formats.getD []), videoOnlyFilter e = true) →
        codecAbsent d.acodec = true := by
      rintro ⟨e, he, hev⟩
      have hne : ((withFormatId (video._formats.getD [])).filter videoOnlyFilter).length
          ≠ 0 := by
        intro h0
        have hmem : e ∈ (withFormatId (video._formats.getD [])).filter videoOnlyFilter :=
          List.mem_filter.mpr ⟨he, hev⟩
        rw [List.length_eq_zero.mp h0] at hmem
        exact List.not_mem_nil _ hmem
      simp only [classifyFormats, hne, ne_eq, not_false_eq_true, if_true] at hcl
      have := (List.mem_filter.mp hcl).2
      simp only [videoOnlyFilter, Bool.and_eq_true] at this
      exact this.2
    exact ⟨hlabel _ (by decide), (labelParts_v_roles d).1, (labelParts_v_roles d).2.1,
      (labelParts_v_roles d).2.2, hv, himp, (codecPresent_iff _).mp hv,
      fun ⟨e, he, hev⟩ =>
        (codecAbsent_iff _).mp (himp ⟨e, he, (videoOnlyFilter_iff e).mpr hev⟩)⟩
  · intro hd
    have hcl := (rankFormats_perm StreamType.av _).subset hd
    have hv := mem_classify_video StreamType.av (by decide) _ d hcl
    have hr := labelParts_av_roles d
    refine ⟨hlabel _ (by decide), hr.1, hv, ?_, ?_, (codecPresent_iff _).mp hv, ?_⟩
    · rw [hr.2.1, hv, Bool.true_and]
    · rw [hr.2.2, hv, Bool.true_and]
    · rw [hr.2.1, hv, Bool.true_and, codecPresent_iff]

theorem role_suffix_of_rendered_witness :
    format137 ∈ rankFormats StreamType.v
        (withFormatId ((videoWith [some format137, some format140])._formats.getD [])) ∧
    LabelPart.videoOnly ∈ labelParts StreamType.v format137 ∧
    codecPresent format137.vcodec = true :=
  have hmem : format137 ∈ rankFormats StreamType.v
      (withFormatId ((videoWith [some format137, some format140])._formats.getD [])) := by
    rw [(rankFormats_perm StreamType.v _).mem_iff]
    decide
  have h := (role_suffix_of_rendered (videoWith [some format137, some format140]) format137).1
    hmem
  ⟨hmem, h.2.1, h.2.2.2.2.1⟩

end Popup

end SmartDownloader
